import Mathlib

/-!
# HD44780 over PCF8574: the `display_i2c` driver

A shallow embedding of `src/display_i2c.c` / `src/display_i2c.h`.

* The file-scope globals of the driver are the record `Globals`.
* Everything the driver does to the outside world is recorded, in order, in a
  trace of `Event`s: installing the I2C driver, writing one byte to the
  expander, and busy-waiting for a number of microseconds.
* The ESP-IDF side (bus driver, `ESP_ERROR_CHECK`) is not part of the
  repository; it is represented by a `Transport` that decides which calls
  succeed.
* `uint8_t` values are natural numbers; every place where C converts an `int`
  back to `uint8_t` is an explicit `u8` (reduction modulo 256).
-/

namespace DisplayI2C

/-! ## Constants of `display_i2c.h` -/

def LCD_CLEARDISPLAY : Nat := 0x01
def LCD_RETURNHOME : Nat := 0x02
def LCD_ENTRYMODESET : Nat := 0x06
def LCD_DISPLAYCONTROL : Nat := 0x08
def LCD_CURSORSHIFT : Nat := 0x10
def LCD_FUNCTIONSET : Nat := 0x20
def LCD_SETCGRAMADDR : Nat := 0x40
def LCD_SETDDRAMADDR : Nat := 0x80

def LCD_ENTRYRIGHT : Nat := 0x00
def LCD_ENTRYLEFT : Nat := 0x02
def LCD_ENTRYSHIFTINCREMENT : Nat := 0x01
def LCD_ENTRYSHIFTDECREMENT : Nat := 0x00

def LCD_DISPLAYON : Nat := 0x04
def LCD_DISPLAYOFF : Nat := 0x00
def LCD_CURSORON : Nat := 0x02
def LCD_CURSOROFF : Nat := 0x00
def LCD_BLINKON : Nat := 0x01
def LCD_BLINKOFF : Nat := 0x00

def LCD_DISPLAYMOVE : Nat := 0x08
def LCD_CURSORMOVE : Nat := 0x00
def LCD_MOVERIGHT : Nat := 0x04
def LCD_MOVELEFT : Nat := 0x00

def LCD_8BITMODE : Nat := 0x10
def LCD_4BITMODE : Nat := 0x00
def LCD_2LINE : Nat := 0x08
def LCD_1LINE : Nat := 0x00
def LCD_5x10DOTS : Nat := 0x04
def LCD_5x8DOTS : Nat := 0x00

def LCD_BACKLIGHT : Nat := 0x08
def LCD_NOBACKLIGHT : Nat := 0x00

def En : Nat := 0x04
def Rw : Nat := 0x02
def Rs : Nat := 0x01

/-- The port constant `I2C_MASTER_NUM` (`I2C_NUM_0` of ESP-IDF). -/
def I2C_MASTER_NUM : Nat := 0

/-! ## Machine arithmetic -/

/-- Conversion of an `int` value to `uint8_t`. -/
def u8 (x : Nat) : Nat := x % 256

/-- Conversion of a possibly negative `int` value to `uint8_t`. -/
def u8i (x : Int) : Nat := (x % 256).toNat

/-- The bit pattern of `~x` for a small non-negative 32-bit `int` `x`. -/
def cnot (x : Nat) : Nat := 2 ^ 32 - 1 - x

/-! ## State, events, outcomes -/

/-- The file-scope globals of `display_i2c.c`. -/
structure Globals where
  _gpio_sda : Nat
  _gpio_scl : Nat
  _addr : Nat
  _displayfunction : Nat
  _displaycontrol : Nat
  _displaymode : Nat
  _cols : Nat
  _rows : Nat
  _charsize : Nat
  _backlightval : Nat
  deriving DecidableEq, Repr

/-- Externally visible actions of the driver. -/
inductive Event where
  /-- `i2c_master_driver_initialize` on the given SDA / SCL pins. -/
  | install (sda scl : Nat)
  /-- `i2c_master_write_slave`: one data byte written to the expander at `addr`. -/
  | write (addr data : Nat)
  /-- `ets_delay_us`. -/
  | delay (us : Nat)
  deriving DecidableEq, Repr

/-- The value of an `esp_err_t`, as far as the driver looks at it. -/
inductive esp_err_t where
  | ESP_OK
  | ESP_FAIL
  deriving DecidableEq, Repr

/-- The ESP-IDF side of the bus: whether installing the driver succeeds, and
whether the write attempt number `n` (counted from 0 over the whole trace) is
acknowledged. -/
structure Transport where
  installOk : Bool
  writeOk : Nat → Bool

/-- The transport on which every call succeeds. -/
def Transport.reliable : Transport := ⟨true, fun _ => true⟩

/-- Globals together with the trace of events so far (oldest first). -/
structure World where
  regs : Globals
  trace : List Event
  deriving DecidableEq, Repr

/-- Ways in which a call does not return. -/
inductive Fault where
  /-- `ESP_ERROR_CHECK` saw an error code and aborted. -/
  | espError
  /-- An array was read outside its bounds (undefined behaviour in C). -/
  | outOfBounds
  deriving DecidableEq, Repr

/-- Result of running a driver function: it returns, or it stops with a fault
after the events recorded so far. -/
inductive Outcome (α : Type) where
  | done (a : α) (w : World)
  | fault (f : Fault) (tr : List Event)
  deriving DecidableEq, Repr

/-- The events recorded by an outcome. -/
def Outcome.trace {α : Type} : Outcome α → List Event
  | .done _ w => w.trace
  | .fault _ tr => tr

/-- Sequencing: continue only after a normal return. -/
def Outcome.andThen {α β : Type} (o : Outcome α) (k : α → World → Outcome β) : Outcome β :=
  match o with
  | .done a w => k a w
  | .fault f tr => .fault f tr

/-- Driver code: a function of the transport and the current world. -/
def LcdM (α : Type) : Type := Transport → World → Outcome α

instance : Monad LcdM where
  pure a := fun _ w => .done a w
  bind m f := fun t w => (m t w).andThen (fun a w1 => f a t w1)

/-- Read the globals. -/
def getG : LcdM Globals := fun _ w => .done w.regs w

/-- Assign to the globals. -/
def setG (f : Globals → Globals) : LcdM Unit := fun _ w => .done () { w with regs := f w.regs }

/-- Stop with a fault. -/
def raise {α : Type} (f : Fault) : LcdM α := fun _ w => .fault f w.trace

/-- The bytes written to the expander, in order. -/
def writes : List Event → List Nat
  | [] => []
  | .write _ d :: es => d :: writes es
  | _ :: es => writes es

/-- Number of write attempts in a trace. -/
def countWrites (tr : List Event) : Nat := (writes tr).length

/-! ## ESP-IDF primitives -/

/-- The ROM busy-wait `ets_delay_us`. -/
def ets_delay_us (us : Nat) : LcdM Unit :=
  fun _ w => .done () { w with trace := w.trace ++ [Event.delay us] }

/-- Modelled from the spec: `ESP_ERROR_CHECK` is an ESP-IDF macro, absent from
the repository. Following the spec ("any transport write failure aborts the
in-progress operation ...; no retry is attempted") it returns when the code is
`ESP_OK` and aborts otherwise. -/
def ESP_ERROR_CHECK (x : LcdM esp_err_t) : LcdM Unit := fun t w =>
  match x t w with
  | .done .ESP_OK w1 => .done () w1
  | .done .ESP_FAIL w1 => .fault .espError w1.trace
  | .fault f tr => .fault f tr

/-- `i2c_master_driver_initialize`: configures and installs the I2C master
driver on the pins `_gpio_sda`, `_gpio_scl`; the result is the transport's. -/
def i2c_master_driver_initialize : LcdM esp_err_t := fun t w =>
  .done (if t.installOk then .ESP_OK else .ESP_FAIL)
    { w with trace := w.trace ++ [Event.install w.regs._gpio_sda w.regs._gpio_scl] }

/-- `i2c_master_write_slave`: start, address + write bit, the byte `data_wr`,
stop; the result is the transport's answer for this write attempt. -/
def i2c_master_write_slave (_i2c_num : Nat) (data_wr : Nat) : LcdM esp_err_t := fun t w =>
  .done (if t.writeOk (countWrites w.trace) then .ESP_OK else .ESP_FAIL)
    { w with trace := w.trace ++ [Event.write w.regs._addr data_wr] }

/-! ## Low level data pushing commands -/

def lcd_expanderWrite (_data : Nat) : LcdM Unit := do
  let g ← getG
  ESP_ERROR_CHECK (i2c_master_write_slave I2C_MASTER_NUM (u8 (_data ||| g._backlightval)))

def lcd_pulseEnable (_data : Nat) : LcdM Unit := do
  lcd_expanderWrite (u8 (_data ||| En))
  ets_delay_us 1
  lcd_expanderWrite (u8 (_data &&& cnot En))
  ets_delay_us 50

def lcd_write4bits (value : Nat) : LcdM Unit := do
  lcd_expanderWrite value
  lcd_pulseEnable value

def lcd_send (value mode : Nat) : LcdM Unit := do
  let highnib := u8 (value &&& 0xf0)
  let lownib := u8 ((value <<< 4) &&& 0xf0)
  lcd_write4bits (u8 (highnib ||| mode))
  lcd_write4bits (u8 (lownib ||| mode))

/-! ## Mid level commands -/

def lcd_write (value : Nat) : LcdM Unit :=
  lcd_send value Rs

def lcd_command (value : Nat) : LcdM Unit :=
  lcd_send value 0

/-! ## High level commands -/

def lcd_init (gpio_sda gpio_scl lcd_addr lcd_cols lcd_rows charsize : Nat) : LcdM Unit :=
  setG fun g => { g with
    _gpio_sda := gpio_sda
    _gpio_scl := gpio_scl
    _addr := lcd_addr
    _cols := lcd_cols
    _rows := lcd_rows
    _charsize := charsize
    _backlightval := LCD_BACKLIGHT }

def lcd_clear : LcdM Unit := do
  lcd_command LCD_CLEARDISPLAY
  ets_delay_us 2000

def lcd_home : LcdM Unit := do
  lcd_command LCD_RETURNHOME
  ets_delay_us 2000

def lcd_noDisplay : LcdM Unit := do
  setG fun g => { g with _displaycontrol := u8 (g._displaycontrol &&& cnot LCD_DISPLAYON) }
  let g ← getG
  lcd_command (u8 (LCD_DISPLAYCONTROL ||| g._displaycontrol))

def lcd_display : LcdM Unit := do
  setG fun g => { g with _displaycontrol := u8 (g._displaycontrol ||| LCD_DISPLAYON) }
  let g ← getG
  lcd_command (u8 (LCD_DISPLAYCONTROL ||| g._displaycontrol))

def lcd_noBlink : LcdM Unit := do
  setG fun g => { g with _displaycontrol := u8 (g._displaycontrol &&& cnot LCD_BLINKON) }
  let g ← getG
  lcd_command (u8 (LCD_DISPLAYCONTROL ||| g._displaycontrol))

def lcd_blink : LcdM Unit := do
  setG fun g => { g with _displaycontrol := u8 (g._displaycontrol ||| LCD_BLINKON) }
  let g ← getG
  lcd_command (u8 (LCD_DISPLAYCONTROL ||| g._displaycontrol))

def lcd_noCursor : LcdM Unit := do
  setG fun g => { g with _displaycontrol := u8 (g._displaycontrol &&& cnot LCD_CURSORON) }
  let g ← getG
  lcd_command (u8 (LCD_DISPLAYCONTROL ||| g._displaycontrol))

def lcd_cursor : LcdM Unit := do
  setG fun g => { g with _displaycontrol := u8 (g._displaycontrol ||| LCD_CURSORON) }
  let g ← getG
  lcd_command (u8 (LCD_DISPLAYCONTROL ||| g._displaycontrol))

def lcd_scrollDisplayLeft : LcdM Unit :=
  lcd_command (u8 (LCD_CURSORSHIFT ||| LCD_DISPLAYMOVE ||| LCD_MOVELEFT))

def lcd_scrollDisplayRight : LcdM Unit :=
  lcd_command (u8 (LCD_CURSORSHIFT ||| LCD_DISPLAYMOVE ||| LCD_MOVERIGHT))

def lcd_leftToRight : LcdM Unit := do
  setG fun g => { g with _displaymode := u8 (g._displaymode ||| LCD_ENTRYLEFT) }
  let g ← getG
  lcd_command (u8 (LCD_ENTRYMODESET ||| g._displaymode))

def lcd_rightToLeft : LcdM Unit := do
  setG fun g => { g with _displaymode := u8 (g._displaymode &&& cnot LCD_ENTRYLEFT) }
  let g ← getG
  lcd_command (u8 (LCD_ENTRYMODESET ||| g._displaymode))

def lcd_noBacklight : LcdM Unit := do
  setG fun g => { g with _backlightval := LCD_NOBACKLIGHT }
  lcd_expanderWrite 0

def lcd_backlight : LcdM Unit := do
  setG fun g => { g with _backlightval := LCD_BACKLIGHT }
  lcd_expanderWrite 0

def lcd_autoscroll : LcdM Unit := do
  setG fun g => { g with _displaymode := u8 (g._displaymode ||| LCD_ENTRYSHIFTINCREMENT) }
  let g ← getG
  lcd_command (u8 (LCD_ENTRYMODESET ||| g._displaymode))

def lcd_noAutoscroll : LcdM Unit := do
  setG fun g => { g with _displaymode := u8 (g._displaymode &&& cnot LCD_ENTRYSHIFTINCREMENT) }
  let g ← getG
  lcd_command (u8 (LCD_ENTRYMODESET ||| g._displaymode))

/-- The body of the `for (uint8_t i = 0; i < 8; i++)` loop of `lcd_createChar`,
with `n` iterations still to run from index `i`; reading `charmap` past its
end is a fault. -/
def lcd_createChar.loop (charmap : List Nat) : Nat → Nat → LcdM Unit
  | 0, _ => pure ()
  | n + 1, i =>
    match charmap[i]? with
    | some c => do
      lcd_write c
      lcd_createChar.loop charmap n (i + 1)
    | none => raise .outOfBounds

def lcd_createChar (location : Nat) (charmap : List Nat) : LcdM Unit := do
  let location := u8 (location &&& 0x7)
  lcd_command (u8 (LCD_SETCGRAMADDR ||| (location <<< 3)))
  lcd_createChar.loop charmap 8 0

/-- The local table `row_offsets` of `lcd_setCursor`. -/
def row_offsets : List Nat := [0x00, 0x40, 0x14, 0x54]

def lcd_setCursor (col row : Nat) : LcdM Unit := do
  let g ← getG
  let row := if row > g._rows then u8i ((g._rows : Int) - 1) else row
  match row_offsets[row]? with
  | some off => lcd_command (u8 (LCD_SETDDRAMADDR ||| (col + off)))
  | none => raise .outOfBounds

/-- The string is the list of bytes stored from `str` to the end of its
object; running off the end before meeting a NUL is a fault. -/
def lcd_print : List Nat → LcdM Unit
  | [] => raise .outOfBounds
  | c :: str =>
    if c = 0 then pure ()
    else do
      lcd_write c
      lcd_print str

def lcd_blink_on : LcdM Unit := lcd_blink
def lcd_blink_off : LcdM Unit := lcd_noBlink
def lcd_cursor_on : LcdM Unit := lcd_cursor
def lcd_cursor_off : LcdM Unit := lcd_noCursor

def lcd_setBacklight (new_val : Nat) : LcdM Unit :=
  if new_val ≠ 0 then lcd_backlight else lcd_noBacklight

def lcd_load_custom_character (char_num : Nat) (rows : List Nat) : LcdM Unit :=
  lcd_createChar char_num rows

def lcd_begin : LcdM Unit := do
  ESP_ERROR_CHECK i2c_master_driver_initialize
  setG fun g => { g with _displayfunction := u8 (LCD_4BITMODE ||| LCD_1LINE ||| LCD_5x8DOTS) }
  let g ← getG
  if g._rows > 1 then
    setG fun g => { g with _displayfunction := u8 (g._displayfunction ||| LCD_2LINE) }
  let g ← getG
  if g._charsize ≠ 0 ∧ g._rows = 1 then
    setG fun g => { g with _displayfunction := u8 (g._displayfunction ||| LCD_5x10DOTS) }
  ets_delay_us 50000
  let g ← getG
  lcd_expanderWrite g._backlightval
  ets_delay_us 1000000
  lcd_write4bits (u8 (0x03 <<< 4))
  ets_delay_us 4500
  lcd_write4bits (u8 (0x03 <<< 4))
  ets_delay_us 4500
  lcd_write4bits (u8 (0x03 <<< 4))
  ets_delay_us 150
  lcd_write4bits (u8 (0x02 <<< 4))
  let g ← getG
  lcd_command (u8 (LCD_FUNCTIONSET ||| g._displayfunction))
  setG fun g => { g with _displaycontrol := u8 (LCD_DISPLAYON ||| LCD_CURSOROFF ||| LCD_BLINKOFF) }
  lcd_display
  lcd_clear
  setG fun g => { g with _displaymode := u8 (LCD_ENTRYLEFT ||| LCD_ENTRYSHIFTDECREMENT) }
  let g ← getG
  lcd_command (u8 (LCD_ENTRYMODESET ||| g._displaymode))
  lcd_home

/-! ## Transport failures -/

/-- Whether the transport lets the event succeed, when `n` writes were
attempted before it. -/
def Event.accepted (t : Transport) (n : Nat) : Event → Bool
  | .install _ _ => t.installOk
  | .write _ _ => t.writeOk n
  | .delay _ => true

/-- The trace up to and including the first event the transport rejects,
if there is one; `n` is the number of writes attempted before the list. -/
def firstReject (t : Transport) : Nat → List Event → Option (List Event)
  | _, [] => none
  | n, e :: es =>
    if e.accepted t n then (firstReject t (n + countWrites [e]) es).map (fun p => e :: p)
    else some [e]

/-- An outcome as seen through a transport: if the transport rejects one of
the recorded events, the run ends there with `espError`. -/
def Outcome.cut {α : Type} (t : Transport) (o : Outcome α) : Outcome α :=
  match firstReject t 0 o.trace with
  | some tr => .fault .espError tr
  | none => o

/-- A driver function respects the abort discipline: on the reliable transport
it only appends events, and on any transport it behaves as on the reliable one
up to the first rejected event, where it stops with `espError`. -/
def Lawful {α : Type} (m : LcdM α) : Prop :=
  (∀ w : World, ∃ evs, (m Transport.reliable w).trace = w.trace ++ evs) ∧
  (∀ (t : Transport) (w : World), firstReject t 0 w.trace = none →
    m t w = (m Transport.reliable w).cut t)

/-! ## The public interface -/

/-- A call of one of the functions declared in `display_i2c.h`. -/
inductive Call where
  | init (gpio_sda gpio_scl lcd_addr lcd_cols lcd_rows charsize : Nat)
  | begin
  | clear
  | home
  | noDisplay
  | display
  | noBlink
  | blink
  | noCursor
  | cursor
  | scrollDisplayLeft
  | scrollDisplayRight
  | leftToRight
  | rightToLeft
  | noBacklight
  | backlight
  | autoscroll
  | noAutoscroll
  | createChar (location : Nat) (charmap : List Nat)
  | setCursor (col row : Nat)
  | print (str : List Nat)
  | blink_on
  | blink_off
  | cursor_on
  | cursor_off
  | setBacklight (new_val : Nat)
  | load_custom_character (char_num : Nat) (rows : List Nat)
  | write (value : Nat)
  | command (value : Nat)
  deriving DecidableEq, Repr

/-- The driver function a call stands for. -/
def Call.exec : Call → LcdM Unit
  | .init sda scl addr cols rows charsize => lcd_init sda scl addr cols rows charsize
  | .begin => lcd_begin
  | .clear => lcd_clear
  | .home => lcd_home
  | .noDisplay => lcd_noDisplay
  | .display => lcd_display
  | .noBlink => lcd_noBlink
  | .blink => lcd_blink
  | .noCursor => lcd_noCursor
  | .cursor => lcd_cursor
  | .scrollDisplayLeft => lcd_scrollDisplayLeft
  | .scrollDisplayRight => lcd_scrollDisplayRight
  | .leftToRight => lcd_leftToRight
  | .rightToLeft => lcd_rightToLeft
  | .noBacklight => lcd_noBacklight
  | .backlight => lcd_backlight
  | .autoscroll => lcd_autoscroll
  | .noAutoscroll => lcd_noAutoscroll
  | .createChar location charmap => lcd_createChar location charmap
  | .setCursor col row => lcd_setCursor col row
  | .print str => lcd_print str
  | .blink_on => lcd_blink_on
  | .blink_off => lcd_blink_off
  | .cursor_on => lcd_cursor_on
  | .cursor_off => lcd_cursor_off
  | .setBacklight new_val => lcd_setBacklight new_val
  | .load_custom_character char_num rows => lcd_load_custom_character char_num rows
  | .write value => lcd_write value
  | .command value => lcd_command value

/-! ## Traces of the transfer primitives -/

/-- The events of one nibble transfer `lcd_write4bits v` on the expander at
address `a` while the backlight flag is `b`. -/
def nibbleEvents (a b v : Nat) : List Event :=
  [Event.write a (u8 (v ||| b)),
   Event.write a (u8 (u8 (v ||| En) ||| b)), Event.delay 1,
   Event.write a (u8 (u8 (v &&& cnot En) ||| b)), Event.delay 50]

/-- The events of `lcd_send value mode`. -/
def sendEvents (a b value mode : Nat) : List Event :=
  nibbleEvents a b (u8 (u8 (value &&& 0xf0) ||| mode)) ++
    nibbleEvents a b (u8 (u8 ((value <<< 4) &&& 0xf0) ||| mode))

/-- The three bytes a single-nibble transfer of `n` puts on the expander while
the backlight flag is `b`: data, data with enable high, data with enable low. -/
def nibbleBytes (b n : Nat) : List Nat := [n ||| b, n ||| 0x04 ||| b, n ||| b]

/-- The six bytes of a full byte transfer of `v` in mode `m` (0 for a command,
`Rs` for data): high nibble first, then low nibble. -/
def sendBytes (b v m : Nat) : List Nat :=
  nibbleBytes b ((v &&& 0xF0) ||| m) ++ nibbleBytes b (((v <<< 4) &&& 0xF0) ||| m)

/-- The globals after `lcd_init(19, 18, 0x27, 16, 2, LCD_5x8DOTS)` of
`example/main.c` followed by `lcd_begin`. -/
def exampleGlobals : Globals :=
  { _gpio_sda := 19, _gpio_scl := 18, _addr := 0x27, _displayfunction := 0x08,
    _displaycontrol := 0x04, _displaymode := 0x02, _cols := 16, _rows := 2,
    _charsize := LCD_5x8DOTS, _backlightval := LCD_BACKLIGHT }

/-! ## Judgements about every run -/

/-- A judgement about a driver function on every transport: started with
globals satisfying `pre`, it only appends events, every appended event
satisfies `ev`, and if it returns `a` the globals satisfy `post a`. -/
def Triple {α : Type} (pre : Globals → Prop) (m : LcdM α) (ev : Event → Prop)
    (post : α → Globals → Prop) : Prop :=
  ∀ (t : Transport) (w : World), pre w.regs →
    ∃ evs, (m t w).trace = w.trace ++ evs ∧ (∀ e ∈ evs, ev e) ∧
      ∀ a w1, m t w = Outcome.done a w1 → post a w1.regs

/-- An invariant of the globals kept by a driver function on every transport,
together with a property of every event it appends. -/
def Inv {α : Type} (I : Globals → Prop) (ev : Event → Prop) (m : LcdM α) : Prop :=
  Triple I m ev (fun _ g => I g)

/-- The event, if it is a write, carries the backlight bit `b`. -/
def carriesBacklight (b : Nat) : Event → Prop
  | .write _ d => d &&& 0x08 = b
  | _ => True

/-- The backlight flag in force while a call performs its writes: the new
value for the calls that assign `_backlightval`, the old one otherwise. -/
def Call.backlightInForce : Call → Nat → Nat
  | .init _ _ _ _ _ _, _ => LCD_BACKLIGHT
  | .backlight, _ => LCD_BACKLIGHT
  | .noBacklight, _ => LCD_NOBACKLIGHT
  | .setBacklight new_val, _ => if new_val ≠ 0 then LCD_BACKLIGHT else LCD_NOBACKLIGHT
  | _, b => b

/-! ## The power-up sequence -/

/-- The value `lcd_begin` computes for `_displayfunction` from the row count
and the character size (lines 70-81 of `display_i2c.c`). -/
def displayFunctionFor (rows charsize : Nat) : Nat :=
  let f0 := u8 (LCD_4BITMODE ||| LCD_1LINE ||| LCD_5x8DOTS)
  let f1 := if rows > 1 then u8 (f0 ||| LCD_2LINE) else f0
  if charsize ≠ 0 ∧ rows = 1 then u8 (f1 ||| LCD_5x10DOTS) else f1

/-- The events of `lcd_begin` on a transport that accepts every call, from the
globals `g`. -/
def beginEvents (g : Globals) : List Event :=
  [Event.install g._gpio_sda g._gpio_scl, Event.delay 50000,
   Event.write g._addr (u8 (g._backlightval ||| g._backlightval)), Event.delay 1000000] ++
  nibbleEvents g._addr g._backlightval (u8 (0x03 <<< 4)) ++ [Event.delay 4500] ++
  nibbleEvents g._addr g._backlightval (u8 (0x03 <<< 4)) ++ [Event.delay 4500] ++
  nibbleEvents g._addr g._backlightval (u8 (0x03 <<< 4)) ++ [Event.delay 150] ++
  nibbleEvents g._addr g._backlightval (u8 (0x02 <<< 4)) ++
  sendEvents g._addr g._backlightval
    (u8 (LCD_FUNCTIONSET ||| displayFunctionFor g._rows g._charsize)) 0 ++
  sendEvents g._addr g._backlightval
    (u8 (LCD_DISPLAYCONTROL |||
      u8 (u8 (LCD_DISPLAYON ||| LCD_CURSOROFF ||| LCD_BLINKOFF) ||| LCD_DISPLAYON))) 0 ++
  sendEvents g._addr g._backlightval LCD_CLEARDISPLAY 0 ++ [Event.delay 2000] ++
  sendEvents g._addr g._backlightval
    (u8 (LCD_ENTRYMODESET ||| u8 (LCD_ENTRYLEFT ||| LCD_ENTRYSHIFTDECREMENT))) 0 ++
  sendEvents g._addr g._backlightval LCD_RETURNHOME 0 ++ [Event.delay 2000]

/-- The globals after `lcd_init(19, 18, 0x27, 16, 2, LCD_5x8DOTS)` of
`example/main.c`, the other (zero-initialised) globals still being 0. -/
def initGlobals : Globals :=
  { _gpio_sda := 19, _gpio_scl := 18, _addr := 0x27, _displayfunction := 0,
    _displaycontrol := 0, _displaymode := 0, _cols := 16, _rows := 2,
    _charsize := LCD_5x8DOTS, _backlightval := LCD_BACKLIGHT }

/-! ## Flag-group mutators -/

/-- The operation `op`, started in `w`, is the update `upd` of the globals
followed by exactly one `lcd_command` of the byte `cmd` computed from the
updated globals: this holds on every transport, and whenever the operation
returns the globals are exactly the updated ones. -/
def Resends (op : LcdM Unit) (upd : Globals → Globals) (cmd : Globals → Nat) (w : World) :
    Prop :=
  (∀ t : Transport, op t w = lcd_command (cmd (upd w.regs)) t { w with regs := upd w.regs }) ∧
  (∀ (t : Transport) (w1 : World), op t w = Outcome.done () w1 → w1.regs = upd w.regs) ∧
  (∃ w1 : World, op Transport.reliable w = Outcome.done () w1)

/-! ## Timing -/

/-- For every write of a trace, the time in microseconds spent in
`ets_delay_us` since the previous write (or since the start of the list, with
`acc` microseconds already waited). -/
def gapsFrom (acc : Nat) : List Event → List Nat
  | [] => []
  | .delay us :: es => gapsFrom (acc + us) es
  | .write _ _ :: es => acc :: gapsFrom 0 es
  | .install _ _ :: es => gapsFrom acc es

/-! ## Frame conditions -/

/-- The calls whose code assigns `_backlightval`. -/
def Call.setsBacklight : Call → Bool
  | .init _ _ _ _ _ _ => true
  | .backlight => true
  | .noBacklight => true
  | .setBacklight _ => true
  | _ => false

/-! ## Control bits on the wire -/

/-- The event, if it is a write, has the read/write bit clear and the
register-select bit equal to `r`. -/
def wireOk (r : Nat) : Event → Prop
  | .write _ d => d &&& Rw = 0 ∧ d &&& Rs = r
  | _ => True

/-- What a call puts on the wire: nothing, command sends (or bare nibbles and
backlight writes), data sends, or one command send followed by data sends. -/
inductive WireKind where
  | silent
  | commands
  | data
  | commandThenData
  deriving DecidableEq, Repr

/-- The kind of traffic of each public call. -/
def Call.wireKind : Call → WireKind
  | .init _ _ _ _ _ _ => .silent
  | .write _ => .data
  | .print _ => .data
  | .createChar _ _ => .commandThenData
  | .load_custom_character _ _ => .commandThenData
  | _ => .commands

/-- The register-select bit of the written bytes follows the kind of traffic:
clear on every byte of a command send, a bare nibble or a backlight write, set
on every byte of a data send; a command send is six bytes. -/
def rsOk : WireKind → List Nat → Prop
  | .silent, ds => ds = []
  | .commands, ds => ∀ d ∈ ds, d &&& Rs = 0
  | .data, ds => ∀ d ∈ ds, d &&& Rs = Rs
  | .commandThenData, ds => (∀ d ∈ ds.take 6, d &&& Rs = 0) ∧ (∀ d ∈ ds.drop 6, d &&& Rs = Rs)

/-- The events a command-only call may append while the backlight flag is `b`
all satisfy `ev`. -/
def CommandEvents (b : Nat) (ev : Event → Prop) : Prop :=
  (∀ a v, ∀ e ∈ sendEvents a b v 0, ev e) ∧
  (∀ a, ∀ e ∈ nibbleEvents a b (u8 (0x03 <<< 4)), ev e) ∧
  (∀ a, ∀ e ∈ nibbleEvents a b (u8 (0x02 <<< 4)), ev e) ∧
  (∀ a, ev (Event.write a (u8 (b ||| b)))) ∧
  (∀ us, ev (Event.delay us)) ∧
  (∀ sda scl, ev (Event.install sda scl))

/-- The transport writes and the delays of a trace, in order, without the bus
address: `Sum.inl` is a written byte, `Sum.inr` a wait in microseconds. -/
def wireTrace : List Event → List (Nat ⊕ Nat)
  | [] => []
  | .write _ d :: es => Sum.inl d :: wireTrace es
  | .delay us :: es => Sum.inr us :: wireTrace es
  | .install _ _ :: es => wireTrace es

/-! # Theorems -/

/-! ## Running programs: rewriting rules -/

section Run
variable {α β : Type}

@[simp] theorem andThen_done (a : α) (w : World) (k : α → World → Outcome β) :
    (Outcome.done a w).andThen k = k a w := rfl

@[simp] theorem andThen_fault (f : Fault) (tr : List Event) (k : α → World → Outcome β) :
    (Outcome.fault f tr : Outcome α).andThen k = Outcome.fault f tr := rfl

@[simp] theorem run_pure (a : α) (t : Transport) (w : World) :
    (pure a : LcdM α) t w = Outcome.done a w := rfl

@[simp] theorem run_bind (m : LcdM α) (f : α → LcdM β) (t : Transport) (w : World) :
    (m >>= f) t w = (m t w).andThen (fun a w1 => f a t w1) := rfl

@[simp] theorem run_getG (t : Transport) (w : World) : getG t w = Outcome.done w.regs w := rfl

@[simp] theorem run_setG (f : Globals → Globals) (t : Transport) (w : World) :
    setG f t w = Outcome.done () { w with regs := f w.regs } := rfl

@[simp] theorem run_raise (f : Fault) (t : Transport) (w : World) :
    (raise f : LcdM α) t w = Outcome.fault f w.trace := rfl

@[simp] theorem run_delay (us : Nat) (t : Transport) (w : World) :
    ets_delay_us us t w = Outcome.done () { w with trace := w.trace ++ [Event.delay us] } := rfl

end Run

theorem run_expanderWrite (d : Nat) (t : Transport) (w : World) :
    lcd_expanderWrite d t w =
      if t.writeOk (countWrites w.trace) then
        Outcome.done () { w with
          trace := w.trace ++ [Event.write w.regs._addr (u8 (d ||| w.regs._backlightval))] }
      else
        Outcome.fault Fault.espError
          (w.trace ++ [Event.write w.regs._addr (u8 (d ||| w.regs._backlightval))]) := by
  cases h : t.writeOk (countWrites w.trace) <;>
    simp [lcd_expanderWrite, ESP_ERROR_CHECK, i2c_master_write_slave, h]

@[simp] theorem run_expanderWrite_reliable (d : Nat) (w : World) :
    lcd_expanderWrite d Transport.reliable w =
      Outcome.done () { w with
        trace := w.trace ++ [Event.write w.regs._addr (u8 (d ||| w.regs._backlightval))] } := by
  simp [run_expanderWrite, Transport.reliable]

@[simp] theorem run_write4bits_reliable (v : Nat) (w : World) :
    lcd_write4bits v Transport.reliable w =
      Outcome.done () { w with
        trace := w.trace ++ nibbleEvents w.regs._addr w.regs._backlightval v } := by
  simp [lcd_write4bits, lcd_pulseEnable, nibbleEvents]

@[simp] theorem run_send_reliable (v m : Nat) (w : World) :
    lcd_send v m Transport.reliable w =
      Outcome.done () { w with
        trace := w.trace ++ sendEvents w.regs._addr w.regs._backlightval v m } := by
  simp [lcd_send, sendEvents]

@[simp] theorem run_command_reliable (v : Nat) (w : World) :
    lcd_command v Transport.reliable w =
      Outcome.done () { w with
        trace := w.trace ++ sendEvents w.regs._addr w.regs._backlightval v 0 } := by
  simp [lcd_command]

@[simp] theorem run_write_reliable (v : Nat) (w : World) :
    lcd_write v Transport.reliable w =
      Outcome.done () { w with
        trace := w.trace ++ sendEvents w.regs._addr w.regs._backlightval v Rs } := by
  simp [lcd_write]

/-! ## Byte facts -/

set_option maxRecDepth 100000 in
theorem highnib_bytes : ∀ v < 256, ∀ m < 2, ∀ b < 2,
    u8 (u8 (u8 (v &&& 0xf0) ||| m) ||| 8 * b) = ((v &&& 0xF0) ||| m) ||| 8 * b ∧
    u8 (u8 (u8 (u8 (v &&& 0xf0) ||| m) ||| En) ||| 8 * b) = ((v &&& 0xF0) ||| m) ||| 0x04 ||| 8 * b ∧
    u8 (u8 (u8 (u8 (v &&& 0xf0) ||| m) &&& cnot En) ||| 8 * b) = ((v &&& 0xF0) ||| m) ||| 8 * b := by
  decide

set_option maxRecDepth 100000 in
theorem lownib_bytes : ∀ v < 256, ∀ m < 2, ∀ b < 2,
    u8 (u8 (u8 ((v <<< 4) &&& 0xf0) ||| m) ||| 8 * b) = (((v <<< 4) &&& 0xF0) ||| m) ||| 8 * b ∧
    u8 (u8 (u8 (u8 ((v <<< 4) &&& 0xf0) ||| m) ||| En) ||| 8 * b)
      = (((v <<< 4) &&& 0xF0) ||| m) ||| 0x04 ||| 8 * b ∧
    u8 (u8 (u8 (u8 ((v <<< 4) &&& 0xf0) ||| m) &&& cnot En) ||| 8 * b)
      = (((v <<< 4) &&& 0xF0) ||| m) ||| 8 * b := by
  decide

theorem flag_cases {m b : Nat} (hm : m = 0 ∨ m = Rs) (hb : b = 0x00 ∨ b = 0x08) :
    ∃ m1 < 2, ∃ b1 < 2, m = m1 ∧ b = 8 * b1 := by
  rcases hm with rfl | rfl <;> rcases hb with rfl | rfl
  · exact ⟨0, by decide, 0, by decide, rfl, rfl⟩
  · exact ⟨0, by decide, 1, by decide, rfl, rfl⟩
  · exact ⟨1, by decide, 0, by decide, rfl, rfl⟩
  · exact ⟨1, by decide, 1, by decide, rfl, rfl⟩

/-- The events of `lcd_send v m` for a byte `v`, a mode in `{0, Rs}` and a
backlight flag in `{0x00, 0x08}`, with the conversions to `uint8_t` resolved. -/
theorem sendEvents_eq (a b v m : Nat) (hv : v < 256) (hm : m = 0 ∨ m = Rs)
    (hb : b = 0x00 ∨ b = 0x08) :
    sendEvents a b v m =
      [Event.write a (((v &&& 0xF0) ||| m) ||| b),
       Event.write a (((v &&& 0xF0) ||| m) ||| 0x04 ||| b), Event.delay 1,
       Event.write a (((v &&& 0xF0) ||| m) ||| b), Event.delay 50,
       Event.write a ((((v <<< 4) &&& 0xF0) ||| m) ||| b),
       Event.write a ((((v <<< 4) &&& 0xF0) ||| m) ||| 0x04 ||| b), Event.delay 1,
       Event.write a ((((v <<< 4) &&& 0xF0) ||| m) ||| b), Event.delay 50] := by
  obtain ⟨m1, hm1, b1, hb1, hm2, hb2⟩ := flag_cases hm hb
  subst hm2 hb2
  obtain ⟨h1, h2, h3⟩ := highnib_bytes v hv m hm1 b1 hb1
  obtain ⟨l1, l2, l3⟩ := lownib_bytes v hv m hm1 b1 hb1
  simp only [sendEvents, nibbleEvents, h1, h2, h3, l1, l2, l3, List.cons_append, List.nil_append]

/-! ## The abort discipline -/

theorem writes_append (xs ys : List Event) : writes (xs ++ ys) = writes xs ++ writes ys := by
  induction xs with
  | nil => rfl
  | cons e es ih => cases e <;> simp [writes, ih]

theorem countWrites_append (xs ys : List Event) :
    countWrites (xs ++ ys) = countWrites xs + countWrites ys := by
  simp [countWrites, writes_append]

theorem firstReject_append (t : Transport) (xs ys : List Event) (n : Nat) :
    firstReject t n (xs ++ ys) =
      match firstReject t n xs with
      | some p => some p
      | none => (firstReject t (n + countWrites xs) ys).map (fun p => xs ++ p) := by
  induction xs generalizing n with
  | nil => simp [firstReject, countWrites, writes]
  | cons e es ih =>
    simp only [List.cons_append, firstReject, List.append_eq]
    by_cases h : e.accepted t n
    · have hc : countWrites (e :: es) = countWrites [e] + countWrites es :=
        countWrites_append [e] es
      rw [if_pos h, if_pos h, ih (n + countWrites [e])]
      cases h2 : firstReject t (n + countWrites [e]) es with
      | some p => simp
      | none => simp [hc, Nat.add_assoc, Function.comp_def]
    · simp [h]

theorem firstReject_snoc (t : Transport) (xs : List Event) (e : Event)
    (h : firstReject t 0 xs = none) :
    firstReject t 0 (xs ++ [e]) =
      if e.accepted t (countWrites xs) then none else some (xs ++ [e]) := by
  rw [firstReject_append, h]
  by_cases h2 : e.accepted t (countWrites xs) <;> simp [firstReject, h2]

theorem cut_of_none {α : Type} (t : Transport) (o : Outcome α)
    (h : firstReject t 0 o.trace = none) : o.cut t = o := by
  simp [Outcome.cut, h]

theorem lawful_pure {α : Type} (a : α) : Lawful (pure a : LcdM α) :=
  ⟨fun w => ⟨[], by simp [Outcome.trace]⟩,
   fun t w h => by rw [cut_of_none] <;> simp [Outcome.trace, h]⟩

theorem lawful_getG : Lawful getG :=
  ⟨fun w => ⟨[], by simp [Outcome.trace]⟩,
   fun t w h => by rw [cut_of_none] <;> simp [Outcome.trace, h]⟩

theorem lawful_setG (f : Globals → Globals) : Lawful (setG f) :=
  ⟨fun w => ⟨[], by simp [Outcome.trace]⟩,
   fun t w h => by rw [cut_of_none] <;> simp [Outcome.trace, h]⟩

theorem lawful_raise {α : Type} (f : Fault) : Lawful (raise f : LcdM α) :=
  ⟨fun w => ⟨[], by simp [Outcome.trace]⟩,
   fun t w h => by rw [cut_of_none] <;> simp [Outcome.trace, h]⟩

theorem lawful_delay (us : Nat) : Lawful (ets_delay_us us) :=
  ⟨fun w => ⟨[Event.delay us], by simp [Outcome.trace]⟩,
   fun t w h => by
    rw [cut_of_none]
    · simp
    · simp [Outcome.trace, firstReject_snoc t _ _ h, Event.accepted]⟩

theorem lawful_write_slave (n d : Nat) : Lawful (ESP_ERROR_CHECK (i2c_master_write_slave n d)) := by
  refine ⟨fun w => ⟨[Event.write w.regs._addr d], ?_⟩, fun t w h => ?_⟩
  · simp [ESP_ERROR_CHECK, i2c_master_write_slave, Transport.reliable, Outcome.trace]
  · cases h2 : t.writeOk (countWrites w.trace) <;>
      simp [ESP_ERROR_CHECK, i2c_master_write_slave, Transport.reliable, Outcome.trace,
        Outcome.cut, firstReject_snoc t _ _ h, Event.accepted, h2]

theorem lawful_driver_install : Lawful (ESP_ERROR_CHECK i2c_master_driver_initialize) := by
  refine ⟨fun w => ⟨[Event.install w.regs._gpio_sda w.regs._gpio_scl], ?_⟩, fun t w h => ?_⟩
  · simp [ESP_ERROR_CHECK, i2c_master_driver_initialize, Transport.reliable, Outcome.trace]
  · cases h2 : t.installOk <;>
      simp [ESP_ERROR_CHECK, i2c_master_driver_initialize, Transport.reliable, Outcome.trace,
        Outcome.cut, firstReject_snoc t _ _ h, Event.accepted, h2]

theorem lawful_bind {α β : Type} {m : LcdM α} {f : α → LcdM β}
    (hm : Lawful m) (hf : ∀ a, Lawful (f a)) : Lawful (m >>= f) := by
  refine ⟨fun w => ?_, fun t w h => ?_⟩
  · obtain ⟨e1, h1⟩ := hm.1 w
    cases hr : m Transport.reliable w with
    | done a w1 =>
      obtain ⟨e2, h2⟩ := (hf a).1 w1
      refine ⟨e1 ++ e2, ?_⟩
      rw [hr] at h1
      simp only [Outcome.trace] at h1
      simp [hr, h2, h1]
    | fault e tr =>
      refine ⟨e1, ?_⟩
      rw [hr] at h1
      simpa [hr] using h1
  · have hq := hm.2 t w h
    cases hr : m Transport.reliable w with
    | fault e tr =>
      rw [hr] at hq
      simp only [run_bind, hq, hr, andThen_fault]
      cases hx : firstReject t 0 tr <;> simp [Outcome.cut, Outcome.trace, hx]
    | done a w1 =>
      rw [hr] at hq
      obtain ⟨e2, h2⟩ := (hf a).1 w1
      cases hc : firstReject t 0 w1.trace with
      | none =>
        have h3 : m t w = Outcome.done a w1 := by
          rw [hq]; exact cut_of_none t _ (by simpa [Outcome.trace] using hc)
        simp only [run_bind, h3, hr, andThen_done]
        exact (hf a).2 t w1 hc
      | some p =>
        have h3 : m t w = Outcome.fault Fault.espError p := by
          rw [hq]; simp [Outcome.cut, Outcome.trace, hc]
        simp only [run_bind, h3, hr, andThen_done, andThen_fault]
        simp [Outcome.cut, h2, firstReject_append, hc]

theorem lawful_expanderWrite (d : Nat) : Lawful (lcd_expanderWrite d) :=
  lawful_bind lawful_getG fun _ => lawful_write_slave _ _

theorem lawful_pulseEnable (d : Nat) : Lawful (lcd_pulseEnable d) :=
  lawful_bind (lawful_expanderWrite _) fun _ =>
    lawful_bind (lawful_delay _) fun _ =>
      lawful_bind (lawful_expanderWrite _) fun _ => lawful_delay _

theorem lawful_write4bits (v : Nat) : Lawful (lcd_write4bits v) :=
  lawful_bind (lawful_expanderWrite _) fun _ => lawful_pulseEnable _

theorem lawful_send (v m : Nat) : Lawful (lcd_send v m) :=
  lawful_bind (lawful_write4bits _) fun _ => lawful_write4bits _

theorem lawful_command (v : Nat) : Lawful (lcd_command v) := lawful_send v 0

theorem lawful_write (v : Nat) : Lawful (lcd_write v) := lawful_send v Rs

/-- Read-modify-write of a flag group followed by the command that re-sends it. -/
theorem lawful_update (f : Globals → Globals) (c : Globals → Nat) :
    Lawful (setG f >>= fun _ => getG >>= fun g => lcd_command (c g)) :=
  lawful_bind (lawful_setG _) fun _ => lawful_bind lawful_getG fun _ => lawful_command _

theorem lawful_clear : Lawful lcd_clear :=
  lawful_bind (lawful_command _) fun _ => lawful_delay _

theorem lawful_home : Lawful lcd_home :=
  lawful_bind (lawful_command _) fun _ => lawful_delay _

theorem lawful_display : Lawful lcd_display := lawful_update _ _

theorem lawful_noBacklight : Lawful lcd_noBacklight :=
  lawful_bind (lawful_setG _) fun _ => lawful_expanderWrite _

theorem lawful_backlight : Lawful lcd_backlight :=
  lawful_bind (lawful_setG _) fun _ => lawful_expanderWrite _

theorem lawful_createChar_loop (charmap : List Nat) (n i : Nat) :
    Lawful (lcd_createChar.loop charmap n i) := by
  induction n generalizing i with
  | zero => exact lawful_pure _
  | succ n ih =>
    unfold lcd_createChar.loop
    cases charmap[i]? with
    | none => exact lawful_raise _
    | some c => exact lawful_bind (lawful_write _) fun _ => ih _

theorem lawful_createChar (location : Nat) (charmap : List Nat) :
    Lawful (lcd_createChar location charmap) :=
  lawful_bind (lawful_command _) fun _ => lawful_createChar_loop _ _ _

theorem lawful_setCursor (col row : Nat) : Lawful (lcd_setCursor col row) := by
  refine lawful_bind lawful_getG fun g => ?_
  show Lawful (match row_offsets[if row > g._rows then u8i ((g._rows : Int) - 1) else row]? with
    | some off => lcd_command (u8 (LCD_SETDDRAMADDR ||| (col + off)))
    | none => raise Fault.outOfBounds)
  cases row_offsets[if row > g._rows then u8i ((g._rows : Int) - 1) else row]? with
  | none => exact lawful_raise _
  | some off => exact lawful_command _

theorem lawful_print (str : List Nat) : Lawful (lcd_print str) := by
  induction str with
  | nil => exact lawful_raise _
  | cons c str ih =>
    unfold lcd_print
    by_cases h : c = 0
    · rw [if_pos h]; exact lawful_pure _
    · rw [if_neg h]; exact lawful_bind (lawful_write _) fun _ => ih

theorem lawful_setBacklight (new_val : Nat) : Lawful (lcd_setBacklight new_val) := by
  unfold lcd_setBacklight
  by_cases h : new_val ≠ 0
  · rw [if_pos h]; exact lawful_backlight
  · rw [if_neg h]; exact lawful_noBacklight

theorem lawful_init (sda scl addr cols rows charsize : Nat) :
    Lawful (lcd_init sda scl addr cols rows charsize) := lawful_setG _

theorem lawful_begin : Lawful lcd_begin := by
  unfold lcd_begin
  repeat' first
    | with_reducible exact lawful_driver_install
    | with_reducible exact lawful_getG
    | with_reducible exact lawful_setG _
    | with_reducible exact lawful_delay _
    | with_reducible exact lawful_pure _
    | with_reducible exact lawful_expanderWrite _
    | with_reducible exact lawful_write4bits _
    | with_reducible exact lawful_command _
    | with_reducible exact lawful_display
    | with_reducible exact lawful_clear
    | with_reducible exact lawful_home
    | with_reducible apply lawful_bind
    | intro _
    | split

/-- Every public function respects the abort discipline. -/
theorem lawful_exec (c : Call) : Lawful c.exec := by
  cases c with
  | init sda scl addr cols rows charsize => exact lawful_init sda scl addr cols rows charsize
  | begin => exact lawful_begin
  | clear => exact lawful_clear
  | home => exact lawful_home
  | createChar l cm => exact lawful_createChar l cm
  | load_custom_character l cm => exact lawful_createChar l cm
  | setCursor col row => exact lawful_setCursor col row
  | print s => exact lawful_print s
  | write v => exact lawful_write v
  | command v => exact lawful_command v
  | setBacklight v => exact lawful_setBacklight v
  | noBacklight => exact lawful_noBacklight
  | backlight => exact lawful_backlight
  | scrollDisplayLeft => exact lawful_command _
  | scrollDisplayRight => exact lawful_command _
  | _ => exact lawful_update _ _

/-! ## Byte transfers -/

theorem writes_sendEvents (a b v m : Nat) (hv : v < 256) (hm : m = 0 ∨ m = Rs)
    (hb : b = 0x00 ∨ b = 0x08) : writes (sendEvents a b v m) = sendBytes b v m := by
  rw [sendEvents_eq a b v m hv hm hb]
  rfl

set_option maxRecDepth 100000 in
theorem nibble_u8 : ∀ v < 256, ∀ m < 2,
    u8 (u8 (v &&& 0xf0) ||| m) = (v &&& 0xF0) ||| m ∧
    u8 (u8 ((v <<< 4) &&& 0xf0) ||| m) = ((v <<< 4) &&& 0xF0) ||| m := by
  decide

/-- C1: for every byte `v`, mode `m ∈ {0, Rs}` and backlight flag in
`{0x00, 0x08}`, `lcd_send v m` is two nibble transfers, first of
`(v & 0xF0) | m`, then of `((v << 4) & 0xF0) | m`; on a transport that
acknowledges every write it returns with the globals unchanged, and the
transport has received exactly the six bytes
`h|b, h|0x04|b, h|b, l|b, l|0x04|b, l|b` in that order (with the 1 us and 50 us
waits of each enable pulse between them). `lcd_command` is `lcd_send` with mode
0, `lcd_write` is `lcd_send` with mode `Rs`. -/
theorem lcd_send_two_nibbles_high_first (w : World) (v m : Nat) (hv : v < 256)
    (hm : m = 0 ∨ m = Rs)
    (hb : w.regs._backlightval = 0x00 ∨ w.regs._backlightval = 0x08) :
    lcd_send v m =
      (lcd_write4bits ((v &&& 0xF0) ||| m) >>= fun _ =>
        lcd_write4bits (((v <<< 4) &&& 0xF0) ||| m)) ∧
    lcd_send v m Transport.reliable w =
      Outcome.done () { w with trace := w.trace ++
        [Event.write w.regs._addr (((v &&& 0xF0) ||| m) ||| w.regs._backlightval),
         Event.write w.regs._addr (((v &&& 0xF0) ||| m) ||| 0x04 ||| w.regs._backlightval),
         Event.delay 1,
         Event.write w.regs._addr (((v &&& 0xF0) ||| m) ||| w.regs._backlightval),
         Event.delay 50,
         Event.write w.regs._addr ((((v <<< 4) &&& 0xF0) ||| m) ||| w.regs._backlightval),
         Event.write w.regs._addr
           ((((v <<< 4) &&& 0xF0) ||| m) ||| 0x04 ||| w.regs._backlightval),
         Event.delay 1,
         Event.write w.regs._addr ((((v <<< 4) &&& 0xF0) ||| m) ||| w.regs._backlightval),
         Event.delay 50] } ∧
    writes (lcd_send v m Transport.reliable w).trace =
      writes w.trace ++
        [((v &&& 0xF0) ||| m) ||| w.regs._backlightval,
         ((v &&& 0xF0) ||| m) ||| 0x04 ||| w.regs._backlightval,
         ((v &&& 0xF0) ||| m) ||| w.regs._backlightval,
         (((v <<< 4) &&& 0xF0) ||| m) ||| w.regs._backlightval,
         (((v <<< 4) &&& 0xF0) ||| m) ||| 0x04 ||| w.regs._backlightval,
         (((v <<< 4) &&& 0xF0) ||| m) ||| w.regs._backlightval] ∧
    lcd_command v = lcd_send v 0 ∧ lcd_write v = lcd_send v Rs := by
  have hu : u8 (u8 (v &&& 0xf0) ||| m) = (v &&& 0xF0) ||| m ∧
      u8 (u8 ((v <<< 4) &&& 0xf0) ||| m) = ((v <<< 4) &&& 0xF0) ||| m := by
    obtain ⟨m1, hm1, b1, _, hm2, _⟩ := flag_cases hm hb
    subst hm2
    exact nibble_u8 v hv m hm1
  refine ⟨?_, ?_, ?_, rfl, rfl⟩
  · simp only [lcd_send, hu.1, hu.2]
  · rw [run_send_reliable, sendEvents_eq _ _ v m hv hm hb]
  · rw [run_send_reliable, sendEvents_eq _ _ v m hv hm hb]
    simp [Outcome.trace, writes_append, writes]

theorem lcd_send_two_nibbles_high_first_witness :
    (0x48 < 256 ∧ (Rs = 0 ∨ Rs = Rs) ∧
      ((⟨exampleGlobals, []⟩ : World).regs._backlightval = 0x00 ∨
        (⟨exampleGlobals, []⟩ : World).regs._backlightval = 0x08)) ∧
    writes (lcd_send 0x48 Rs Transport.reliable ⟨exampleGlobals, []⟩).trace =
      [0x49, 0x4D, 0x49, 0x89, 0x8D, 0x89] :=
  ⟨⟨by decide, Or.inr rfl, Or.inr rfl⟩,
   (lcd_send_two_nibbles_high_first ⟨exampleGlobals, []⟩ 0x48 Rs (by decide) (Or.inr rfl)
      (Or.inr rfl)).2.2.1⟩

/-! ## Judgements about every run: rules -/

theorem triple_pure {α : Type} {pre : Globals → Prop} {ev : Event → Prop}
    {post : α → Globals → Prop} (a : α) (h : ∀ g, pre g → post a g) :
    Triple pre (pure a : LcdM α) ev post := by
  intro t w hp
  refine ⟨[], by simp [Outcome.trace], by simp, ?_⟩
  intro a1 w1 h1
  simp only [run_pure, Outcome.done.injEq] at h1
  obtain ⟨rfl, rfl⟩ := h1
  exact h _ hp

theorem triple_getG {pre : Globals → Prop} {ev : Event → Prop} :
    Triple pre getG ev (fun a g => a = g ∧ pre g) := by
  intro t w hp
  refine ⟨[], by simp [Outcome.trace], by simp, ?_⟩
  intro a1 w1 h1
  simp only [run_getG, Outcome.done.injEq] at h1
  obtain ⟨rfl, rfl⟩ := h1
  exact ⟨rfl, hp⟩

theorem triple_setG {pre : Globals → Prop} {ev : Event → Prop}
    {post : Unit → Globals → Prop} (f : Globals → Globals) (h : ∀ g, pre g → post () (f g)) :
    Triple pre (setG f) ev post := by
  intro t w hp
  refine ⟨[], by simp [Outcome.trace], by simp, ?_⟩
  intro a1 w1 h1
  simp only [run_setG, Outcome.done.injEq] at h1
  obtain ⟨_, rfl⟩ := h1
  exact h _ hp

theorem triple_raise {α : Type} {pre : Globals → Prop} {ev : Event → Prop}
    {post : α → Globals → Prop} (f : Fault) : Triple pre (raise f : LcdM α) ev post := by
  intro t w _
  refine ⟨[], by simp [Outcome.trace], by simp, ?_⟩
  intro a1 w1 h1
  simp at h1

theorem triple_delay {pre : Globals → Prop} {ev : Event → Prop} (us : Nat)
    (h : ev (Event.delay us)) : Triple pre (ets_delay_us us) ev (fun _ g => pre g) := by
  intro t w hp
  refine ⟨[Event.delay us], by simp [Outcome.trace], by simpa using h, ?_⟩
  intro a1 w1 h1
  simp only [run_delay, Outcome.done.injEq] at h1
  obtain ⟨_, rfl⟩ := h1
  exact hp

theorem triple_write_slave {pre : Globals → Prop} {ev : Event → Prop} (n d : Nat)
    (h : ∀ g, pre g → ev (Event.write g._addr d)) :
    Triple pre (ESP_ERROR_CHECK (i2c_master_write_slave n d)) ev (fun _ g => pre g) := by
  intro t w hp
  refine ⟨[Event.write w.regs._addr d], ?_, by simpa using h _ hp, ?_⟩
  · cases h2 : t.writeOk (countWrites w.trace) <;>
      simp [ESP_ERROR_CHECK, i2c_master_write_slave, Outcome.trace, h2]
  · intro a1 w1 h1
    cases h2 : t.writeOk (countWrites w.trace) <;>
      simp [ESP_ERROR_CHECK, i2c_master_write_slave, h2] at h1
    rw [← h1]
    exact hp

theorem triple_driver_install {pre : Globals → Prop} {ev : Event → Prop}
    (h : ∀ g, pre g → ev (Event.install g._gpio_sda g._gpio_scl)) :
    Triple pre (ESP_ERROR_CHECK i2c_master_driver_initialize) ev (fun _ g => pre g) := by
  intro t w hp
  refine ⟨[Event.install w.regs._gpio_sda w.regs._gpio_scl], ?_, by simpa using h _ hp, ?_⟩
  · cases h2 : t.installOk <;>
      simp [ESP_ERROR_CHECK, i2c_master_driver_initialize, Outcome.trace, h2]
  · intro a1 w1 h1
    cases h2 : t.installOk <;>
      simp [ESP_ERROR_CHECK, i2c_master_driver_initialize, h2] at h1
    rw [← h1]
    exact hp

theorem triple_bind {α β : Type} {pre : Globals → Prop} {ev : Event → Prop}
    {mid : α → Globals → Prop} {post : β → Globals → Prop} {m : LcdM α} {f : α → LcdM β}
    (hm : Triple pre m ev mid) (hf : ∀ a, Triple (mid a) (f a) ev post) :
    Triple pre (m >>= f) ev post := by
  intro t w hp
  obtain ⟨e1, h1, h2, h3⟩ := hm t w hp
  cases hr : m t w with
  | fault e tr =>
    rw [hr] at h1
    refine ⟨e1, by simpa [hr, Outcome.trace] using h1, h2, ?_⟩
    intro a1 w1 h4
    simp [hr] at h4
  | done a w1 =>
    rw [hr] at h1
    simp only [Outcome.trace] at h1
    obtain ⟨e2, h5, h6, h7⟩ := hf a t w1 (h3 a w1 hr)
    refine ⟨e1 ++ e2, ?_, ?_, ?_⟩
    · simp [hr, h5, h1]
    · intro e he
      rcases List.mem_append.mp he with h | h
      · exact h2 e h
      · exact h6 e h
    · intro b w2 h8
      apply h7 b w2
      simpa [hr] using h8

theorem triple_conseq {α : Type} {pre pre1 : Globals → Prop} {ev : Event → Prop}
    {post post1 : α → Globals → Prop} {m : LcdM α} (hm : Triple pre1 m ev post1)
    (hpre : ∀ g, pre g → pre1 g) (hpost : ∀ a g, post1 a g → post a g) :
    Triple pre m ev post := by
  intro t w hp
  obtain ⟨e1, h1, h2, h3⟩ := hm t w (hpre _ hp)
  exact ⟨e1, h1, h2, fun a w1 h => hpost _ _ (h3 a w1 h)⟩

theorem mem_writes {d : Nat} {evs : List Event} (h : d ∈ writes evs) :
    ∃ a, Event.write a d ∈ evs := by
  induction evs with
  | nil => simp [writes] at h
  | cons e es ih =>
    cases e with
    | write a x =>
      simp only [writes, List.mem_cons] at h
      rcases h with rfl | h
      · exact ⟨a, by simp⟩
      · obtain ⟨a1, h1⟩ := ih h
        exact ⟨a1, by simp [h1]⟩
    | install _ _ =>
      obtain ⟨a1, h1⟩ := ih (by simpa [writes] using h)
      exact ⟨a1, by simp [h1]⟩
    | delay _ =>
      obtain ⟨a1, h1⟩ := ih (by simpa [writes] using h)
      exact ⟨a1, by simp [h1]⟩

/-! ## Invariants -/

section InvRules
variable {α β : Type} {I : Globals → Prop} {ev : Event → Prop}

theorem inv_pure (a : α) : Inv I ev (pure a : LcdM α) := triple_pure a fun _ h => h

theorem inv_raise (f : Fault) : Inv I ev (raise f : LcdM α) := triple_raise f

theorem inv_setG (f : Globals → Globals) (h : ∀ g, I g → I (f g)) : Inv I ev (setG f) :=
  triple_setG f h

theorem inv_delay (us : Nat) (h : ev (Event.delay us)) : Inv I ev (ets_delay_us us) :=
  triple_delay us h

theorem inv_bind {m : LcdM α} {f : α → LcdM β} (hm : Inv I ev m) (hf : ∀ a, Inv I ev (f a)) :
    Inv I ev (m >>= f) :=
  triple_bind hm hf

theorem inv_getG_bind {f : Globals → LcdM β} (hf : ∀ a, I a → Inv I ev (f a)) :
    Inv I ev (getG >>= f) := by
  intro t w hp
  simpa using hf w.regs hp t w hp

theorem inv_driver_install (h : ∀ g, I g → ev (Event.install g._gpio_sda g._gpio_scl)) :
    Inv I ev (ESP_ERROR_CHECK i2c_master_driver_initialize) :=
  triple_driver_install h

theorem inv_expanderWrite (d : Nat)
    (h : ∀ g, I g → ev (Event.write g._addr (u8 (d ||| g._backlightval)))) :
    Inv I ev (lcd_expanderWrite d) := by
  intro t w hp
  refine ⟨[Event.write w.regs._addr (u8 (d ||| w.regs._backlightval))], ?_,
    by simpa using h _ hp, ?_⟩
  · cases h2 : t.writeOk (countWrites w.trace) <;> simp [run_expanderWrite, Outcome.trace, h2]
  · intro a1 w1 h1
    cases h2 : t.writeOk (countWrites w.trace) <;> simp [run_expanderWrite, h2] at h1
    rw [← h1]
    exact hp

theorem inv_write4bits (v : Nat)
    (h : ∀ g, I g → ∀ e ∈ nibbleEvents g._addr g._backlightval v, ev e) :
    Inv I ev (lcd_write4bits v) := by
  intro t w hp
  have hd1 : ev (Event.delay 1) := h _ hp _ (by simp [nibbleEvents])
  have hd50 : ev (Event.delay 50) := h _ hp _ (by simp [nibbleEvents])
  have hw : Inv I ev (lcd_write4bits v) :=
    inv_bind (inv_expanderWrite _ fun g hg => h g hg _ (by simp [nibbleEvents])) fun _ =>
      inv_bind (inv_expanderWrite _ fun g hg => h g hg _ (by simp [nibbleEvents])) fun _ =>
        inv_bind (inv_delay _ hd1) fun _ =>
          inv_bind (inv_expanderWrite _ fun g hg => h g hg _ (by simp [nibbleEvents])) fun _ =>
            inv_delay _ hd50
  exact hw t w hp

theorem inv_send (v m : Nat)
    (h : ∀ g, I g → ∀ e ∈ sendEvents g._addr g._backlightval v m, ev e) :
    Inv I ev (lcd_send v m) :=
  inv_bind (inv_write4bits _ fun g hg e he => h g hg e (by simp [sendEvents, he])) fun _ =>
    inv_write4bits _ fun g hg e he => h g hg e (by simp [sendEvents, he])

end InvRules

/-! ## The backlight bit -/

theorem u8_lt (x : Nat) : u8 x < 256 := Nat.mod_lt _ (by decide)

theorem masked_nibble (x : Nat) : x &&& 0xf0 < 256 ∧ (x &&& 0xf0) &&& 0xf0 = x &&& 0xf0 := by
  refine ⟨Nat.lt_of_le_of_lt Nat.and_le_right (by decide), ?_⟩
  rw [Nat.and_assoc]
  rfl

set_option maxRecDepth 100000 in
theorem backlight_bit_bytes : ∀ n < 256, n &&& 0x08 = 0 → ∀ b1 < 2,
    u8 (n ||| 8 * b1) &&& 0x08 = 8 * b1 ∧
    u8 (u8 (n ||| En) ||| 8 * b1) &&& 0x08 = 8 * b1 ∧
    u8 (u8 (n &&& cnot En) ||| 8 * b1) &&& 0x08 = 8 * b1 := by
  decide

set_option maxRecDepth 100000 in
theorem data_nibble_bit3 : ∀ h < 256, h &&& 0xf0 = h → ∀ m < 2,
    u8 (u8 h ||| m) &&& 0x08 = 0 := by
  decide

theorem carriesBacklight_nibbleEvents (a b n : Nat) (hn : n < 256) (h8 : n &&& 0x08 = 0)
    (hb : b = 0x00 ∨ b = 0x08) : ∀ e ∈ nibbleEvents a b n, carriesBacklight b e := by
  obtain ⟨_, _, b1, hb1, _, rfl⟩ := flag_cases (Or.inl rfl : (0 : Nat) = 0 ∨ 0 = Rs) hb
  obtain ⟨h1, h2, h3⟩ := backlight_bit_bytes n hn h8 b1 hb1
  intro e he
  simp only [nibbleEvents, List.mem_cons, List.mem_singleton, List.not_mem_nil, or_false] at he
  rcases he with rfl | rfl | rfl | rfl | rfl <;> simp [carriesBacklight, h1, h2, h3]

theorem carriesBacklight_sendEvents (a b v m : Nat) (hm : m < 2) (hb : b = 0x00 ∨ b = 0x08) :
    ∀ e ∈ sendEvents a b v m, carriesBacklight b e := by
  intro e he
  rcases List.mem_append.mp he with h | h
  · exact carriesBacklight_nibbleEvents a b _ (u8_lt _)
      (data_nibble_bit3 _ (masked_nibble v).1 (masked_nibble v).2 m hm) hb e h
  · exact carriesBacklight_nibbleEvents a b _ (u8_lt _)
      (data_nibble_bit3 _ (masked_nibble (v <<< 4)).1 (masked_nibble (v <<< 4)).2 m hm) hb e h

section Backlight
variable {b : Nat}

theorem bl_command (hb : b = 0x00 ∨ b = 0x08) (v : Nat) :
    Inv (fun g => g._backlightval = b) (carriesBacklight b) (lcd_command v) :=
  inv_send v 0 fun g hg => by
    rw [hg]
    exact carriesBacklight_sendEvents g._addr b v 0 (by decide) hb

theorem bl_write (hb : b = 0x00 ∨ b = 0x08) (v : Nat) :
    Inv (fun g => g._backlightval = b) (carriesBacklight b) (lcd_write v) :=
  inv_send v Rs fun g hg => by
    rw [hg]
    exact carriesBacklight_sendEvents g._addr b v 1 (by decide) hb

theorem bl_write4bits (hb : b = 0x00 ∨ b = 0x08) (n : Nat) (hn : n < 256)
    (h8 : n &&& 0x08 = 0) :
    Inv (fun g => g._backlightval = b) (carriesBacklight b) (lcd_write4bits n) :=
  inv_write4bits n fun g hg => by
    rw [hg]
    exact carriesBacklight_nibbleEvents g._addr b n hn h8 hb

theorem bl_expanderWrite_flag (hb : b = 0x00 ∨ b = 0x08) (a : Globals)
    (ha : a._backlightval = b) :
    Inv (fun g => g._backlightval = b) (carriesBacklight b)
      (lcd_expanderWrite a._backlightval) :=
  inv_expanderWrite _ fun g hg => by
    rw [hg, ha]
    rcases hb with rfl | rfl <;> simp [carriesBacklight, u8]

theorem bl_expanderWrite_zero (hb : b = 0x00 ∨ b = 0x08) :
    Inv (fun g => g._backlightval = b) (carriesBacklight b) (lcd_expanderWrite 0) :=
  inv_expanderWrite _ fun g hg => by
    rw [hg]
    rcases hb with rfl | rfl <;> simp [carriesBacklight, u8]

end Backlight

section BacklightOps
variable {b : Nat}

theorem bl_createChar_loop (hb : b = 0x00 ∨ b = 0x08) (charmap : List Nat) (n i : Nat) :
    Inv (fun g => g._backlightval = b) (carriesBacklight b) (lcd_createChar.loop charmap n i) := by
  induction n generalizing i with
  | zero => exact inv_pure _
  | succ n ih =>
    unfold lcd_createChar.loop
    cases charmap[i]? with
    | none => exact inv_raise _
    | some c => exact inv_bind (bl_write hb _) fun _ => ih _

theorem bl_print (hb : b = 0x00 ∨ b = 0x08) (str : List Nat) :
    Inv (fun g => g._backlightval = b) (carriesBacklight b) (lcd_print str) := by
  induction str with
  | nil => exact inv_raise _
  | cons c str ih =>
    unfold lcd_print
    by_cases h : c = 0
    · rw [if_pos h]; exact inv_pure _
    · rw [if_neg h]; exact inv_bind (bl_write hb _) fun _ => ih

theorem bl_setCursor (hb : b = 0x00 ∨ b = 0x08) (col row : Nat) :
    Inv (fun g => g._backlightval = b) (carriesBacklight b) (lcd_setCursor col row) := by
  refine inv_getG_bind fun g _ => ?_
  show Inv _ _ (match row_offsets[if row > g._rows then u8i ((g._rows : Int) - 1) else row]? with
    | some off => lcd_command (u8 (LCD_SETDDRAMADDR ||| (col + off)))
    | none => raise Fault.outOfBounds)
  cases row_offsets[if row > g._rows then u8i ((g._rows : Int) - 1) else row]? with
  | none => exact inv_raise _
  | some off => exact bl_command hb _

/-- Read-modify-write of a flag group other than the backlight flag, followed
by the command that re-sends it. -/
theorem bl_update (hb : b = 0x00 ∨ b = 0x08) (f : Globals → Globals) (c : Globals → Nat)
    (hf : ∀ g, (f g)._backlightval = g._backlightval) :
    Inv (fun g => g._backlightval = b) (carriesBacklight b)
      (setG f >>= fun _ => getG >>= fun g => lcd_command (c g)) :=
  inv_bind (inv_setG _ fun g hg => (hf g).trans hg) fun _ =>
    inv_getG_bind fun _ _ => bl_command hb _

theorem bl_clear (hb : b = 0x00 ∨ b = 0x08) :
    Inv (fun g => g._backlightval = b) (carriesBacklight b) lcd_clear :=
  inv_bind (bl_command hb _) fun _ => inv_delay _ trivial

theorem bl_home (hb : b = 0x00 ∨ b = 0x08) :
    Inv (fun g => g._backlightval = b) (carriesBacklight b) lcd_home :=
  inv_bind (bl_command hb _) fun _ => inv_delay _ trivial

theorem bl_display (hb : b = 0x00 ∨ b = 0x08) :
    Inv (fun g => g._backlightval = b) (carriesBacklight b) lcd_display :=
  bl_update hb _ _ fun _ => rfl

theorem bl_begin (hb : b = 0x00 ∨ b = 0x08) :
    Inv (fun g => g._backlightval = b) (carriesBacklight b) lcd_begin := by
  unfold lcd_begin
  repeat' first
    | with_reducible apply inv_getG_bind
    | with_reducible apply inv_bind
    | with_reducible intro _
    | with_reducible exact inv_pure _
    | with_reducible exact bl_command hb _
    | with_reducible exact bl_display hb
    | with_reducible exact bl_clear hb
    | with_reducible exact bl_home hb
    | with_reducible exact bl_expanderWrite_flag hb _ (by assumption)
    | with_reducible exact bl_write4bits hb _ (by decide) (by decide)
    | exact inv_driver_install fun _ _ => trivial
    | exact inv_delay _ trivial
    | exact inv_setG _ fun _ h => h
    | split

/-- Every call that does not assign `_backlightval` keeps it and writes only
bytes that carry it. -/
theorem bl_exec_keep (hb : b = 0x00 ∨ b = 0x08) (c : Call)
    (hc : ∀ x, c.backlightInForce x = x) :
    Inv (fun g => g._backlightval = b) (carriesBacklight b) c.exec := by
  cases c with
  | init sda scl addr cols rows charsize =>
    exact absurd (hc 0) (by simp [Call.backlightInForce, LCD_BACKLIGHT])
  | backlight => exact absurd (hc 0) (by decide)
  | noBacklight => exact absurd (hc 8) (by decide)
  | setBacklight v =>
    by_cases hv : v ≠ 0
    · exact absurd (hc 0) (by simp [Call.backlightInForce, hv, LCD_BACKLIGHT])
    · exact absurd (hc 8) (by simp [Call.backlightInForce, hv, LCD_NOBACKLIGHT])
  | begin => exact bl_begin hb
  | clear => exact bl_clear hb
  | home => exact bl_home hb
  | createChar l cm => exact inv_bind (bl_command hb _) fun _ => bl_createChar_loop hb _ _ _
  | load_custom_character l cm =>
    exact inv_bind (bl_command hb _) fun _ => bl_createChar_loop hb _ _ _
  | setCursor col row => exact bl_setCursor hb col row
  | print s => exact bl_print hb s
  | write v => exact bl_write hb v
  | command v => exact bl_command hb v
  | scrollDisplayLeft => exact bl_command hb _
  | scrollDisplayRight => exact bl_command hb _
  | _ => exact bl_update hb _ _ fun _ => rfl

end BacklightOps

theorem bl_exec (c : Call) (b : Nat) (hb : b = 0x00 ∨ b = 0x08) :
    Triple (fun g => g._backlightval = b) c.exec (carriesBacklight (c.backlightInForce b))
      (fun _ g => g._backlightval = c.backlightInForce b) := by
  have hon : Triple (fun g => g._backlightval = b) lcd_backlight
      (carriesBacklight LCD_BACKLIGHT) (fun _ g => g._backlightval = LCD_BACKLIGHT) :=
    @triple_bind _ _ _ _ (fun _ g => g._backlightval = LCD_BACKLIGHT) _ _ _
      (triple_setG _ fun _ _ => rfl) fun _ => bl_expanderWrite_zero (Or.inr rfl)
  have hoff : Triple (fun g => g._backlightval = b) lcd_noBacklight
      (carriesBacklight LCD_NOBACKLIGHT) (fun _ g => g._backlightval = LCD_NOBACKLIGHT) :=
    @triple_bind _ _ _ _ (fun _ g => g._backlightval = LCD_NOBACKLIGHT) _ _ _
      (triple_setG _ fun _ _ => rfl) fun _ => bl_expanderWrite_zero (Or.inl rfl)
  cases c with
  | init sda scl addr cols rows charsize =>
    have hi : Triple (fun g => g._backlightval = b)
        (lcd_init sda scl addr cols rows charsize) (carriesBacklight LCD_BACKLIGHT)
        (fun _ g => g._backlightval = LCD_BACKLIGHT) := by
      unfold lcd_init
      exact triple_setG _ fun _ _ => rfl
    exact hi
  | backlight => exact hon
  | noBacklight => exact hoff
  | setBacklight v =>
    by_cases hv : v ≠ 0
    · simpa [Call.exec, lcd_setBacklight, Call.backlightInForce, hv] using hon
    · simpa [Call.exec, lcd_setBacklight, Call.backlightInForce, hv] using hoff
  | _ => exact bl_exec_keep hb _ fun _ => rfl

/-- C2: every expander write ORs in the current backlight flag. For every public
operation, run on any transport from a state whose `_backlightval` is `0x00` or
`0x08`, every byte handed to the transport has bit `0x08` equal to the value of
`_backlightval` in force when the byte is written: the old value, or the newly
assigned one for `lcd_backlight`, `lcd_noBacklight` and `lcd_setBacklight`; and
that is the value `_backlightval` holds when the operation returns. -/
theorem every_write_carries_backlight (c : Call) (t : Transport) (w : World)
    (hb : w.regs._backlightval = 0x00 ∨ w.regs._backlightval = 0x08) :
    ∃ evs, (c.exec t w).trace = w.trace ++ evs ∧
      (∀ d ∈ writes evs, d &&& 0x08 = c.backlightInForce w.regs._backlightval) ∧
      (∀ w1, c.exec t w = Outcome.done () w1 →
        w1.regs._backlightval = c.backlightInForce w.regs._backlightval) := by
  obtain ⟨evs, h1, h2, h3⟩ := bl_exec c w.regs._backlightval hb t w rfl
  refine ⟨evs, h1, ?_, fun w1 h => h3 () w1 h⟩
  intro d hd
  obtain ⟨a, ha⟩ := mem_writes hd
  exact h2 _ ha

theorem every_write_carries_backlight_witness :
    ((⟨exampleGlobals, []⟩ : World).regs._backlightval = 0x00 ∨
      (⟨exampleGlobals, []⟩ : World).regs._backlightval = 0x08) ∧
    ∃ evs, (Call.begin.exec Transport.reliable ⟨exampleGlobals, []⟩).trace =
        (⟨exampleGlobals, []⟩ : World).trace ++ evs ∧
      (∀ d ∈ writes evs, d &&& 0x08 = 0x08) ∧
      (∀ w1, Call.begin.exec Transport.reliable ⟨exampleGlobals, []⟩ = Outcome.done () w1 →
        w1.regs._backlightval = 0x08) :=
  ⟨Or.inr rfl,
   every_write_carries_backlight Call.begin Transport.reliable ⟨exampleGlobals, []⟩ (Or.inr rfl)⟩

/-! ## The power-up sequence -/

@[simp] theorem run_driver_install_reliable (w : World) :
    ESP_ERROR_CHECK i2c_master_driver_initialize Transport.reliable w =
      Outcome.done ()
        { w with trace := w.trace ++ [Event.install w.regs._gpio_sda w.regs._gpio_scl] } := by
  simp [ESP_ERROR_CHECK, i2c_master_driver_initialize, Transport.reliable]

@[simp] theorem run_clear_reliable (w : World) :
    lcd_clear Transport.reliable w =
      Outcome.done () { w with
        trace := w.trace ++
          (sendEvents w.regs._addr w.regs._backlightval LCD_CLEARDISPLAY 0 ++
            [Event.delay 2000]) } := by
  simp [lcd_clear]

@[simp] theorem run_home_reliable (w : World) :
    lcd_home Transport.reliable w =
      Outcome.done () { w with
        trace := w.trace ++
          (sendEvents w.regs._addr w.regs._backlightval LCD_RETURNHOME 0 ++
            [Event.delay 2000]) } := by
  simp [lcd_home]

@[simp] theorem run_display_reliable (w : World) :
    lcd_display Transport.reliable w =
      Outcome.done ()
        { regs := { w.regs with
            _displaycontrol := u8 (w.regs._displaycontrol ||| LCD_DISPLAYON) }
          trace := w.trace ++ sendEvents w.regs._addr w.regs._backlightval
            (u8 (LCD_DISPLAYCONTROL ||| u8 (w.regs._displaycontrol ||| LCD_DISPLAYON))) 0 } := by
  simp [lcd_display]

theorem run_begin_reliable (w : World) :
    lcd_begin Transport.reliable w =
      Outcome.done ()
        { regs := { w.regs with
            _displayfunction := displayFunctionFor w.regs._rows w.regs._charsize
            _displaycontrol :=
              u8 (u8 (LCD_DISPLAYON ||| LCD_CURSOROFF ||| LCD_BLINKOFF) ||| LCD_DISPLAYON)
            _displaymode := u8 (LCD_ENTRYLEFT ||| LCD_ENTRYSHIFTDECREMENT) }
          trace := w.trace ++ beginEvents w.regs } := by
  by_cases h1 : w.regs._rows > 1 <;> by_cases h2 : w.regs._charsize ≠ 0 ∧ w.regs._rows = 1 <;>
    simp [lcd_begin, displayFunctionFor, beginEvents, h1, h2]

theorem displayFunctionFor_cases (rows charsize : Nat) :
    displayFunctionFor rows charsize = 0x00 ∨ displayFunctionFor rows charsize = 0x08 ∨
      displayFunctionFor rows charsize = 0x04 := by
  simp only [displayFunctionFor]
  split_ifs <;> first | omega | (left; rfl) | (right; left; rfl) | (right; right; rfl)

theorem writes_nil : writes [] = [] := rfl

theorem writes_write_cons (a d : Nat) (es : List Event) :
    writes (Event.write a d :: es) = d :: writes es := rfl

theorem writes_delay_cons (us : Nat) (es : List Event) :
    writes (Event.delay us :: es) = writes es := rfl

theorem writes_install_cons (sda scl : Nat) (es : List Event) :
    writes (Event.install sda scl :: es) = writes es := rfl

theorem writes_nibbleEvents (a b n : Nat) :
    writes (nibbleEvents a b n) =
      [u8 (n ||| b), u8 (u8 (n ||| En) ||| b), u8 (u8 (n &&& cnot En) ||| b)] := rfl

theorem writes_beginEvents (g : Globals)
    (hb : g._backlightval = 0x00 ∨ g._backlightval = 0x08) :
    writes (beginEvents g) =
      [g._backlightval] ++
      nibbleBytes g._backlightval 0x30 ++ nibbleBytes g._backlightval 0x30 ++
      nibbleBytes g._backlightval 0x30 ++ nibbleBytes g._backlightval 0x20 ++
      sendBytes g._backlightval
        (LCD_FUNCTIONSET ||| displayFunctionFor g._rows g._charsize) 0 ++
      sendBytes g._backlightval (LCD_DISPLAYCONTROL ||| 0x04) 0 ++
      sendBytes g._backlightval LCD_CLEARDISPLAY 0 ++
      sendBytes g._backlightval
        (LCD_ENTRYMODESET ||| (LCD_ENTRYLEFT ||| LCD_ENTRYSHIFTDECREMENT)) 0 ++
      sendBytes g._backlightval LCD_RETURNHOME 0 := by
  obtain ⟨sda, scl, addr, df, dc, dm, cols, rows, cs, bl⟩ := g
  simp only at hb
  rcases hb with rfl | rfl <;>
    rcases displayFunctionFor_cases rows cs with h | h | h <;>
      simp only [beginEvents, sendEvents, writes_append, writes_nibbleEvents, writes_nil,
        writes_write_cons, writes_delay_cons, writes_install_cons, h] <;> decide

/-- C3: on a transport that accepts every call, for every configuration with
backlight flag `0x00` or `0x08`, `lcd_begin` returns, and the bytes it hands to
the transport are, in this order and nothing else: one backlight-only write;
three single-nibble transfers of `0x30`; one single-nibble transfer of `0x20`;
the full command bytes `LCD_FUNCTIONSET | function_flags`,
`LCD_DISPLAYCONTROL | 0x04 = 0x0C`, `LCD_CLEARDISPLAY = 0x01`,
`LCD_ENTRYMODESET | (left-to-right, shift-decrement) = 0x06` and
`LCD_RETURNHOME = 0x02`; that is 43 writes. Afterwards `_displaycontrol = 0x04`
and `_displaymode = 0x02`. For 2 rows and the 5x8 font the function-set byte
is `0x28`. -/
theorem lcd_begin_power_up_sequence (w : World)
    (hb : w.regs._backlightval = 0x00 ∨ w.regs._backlightval = 0x08) :
    lcd_begin Transport.reliable w =
      Outcome.done ()
        { regs := { w.regs with
            _displayfunction := displayFunctionFor w.regs._rows w.regs._charsize
            _displaycontrol := 0x04
            _displaymode := 0x02 }
          trace := (lcd_begin Transport.reliable w).trace } ∧
    writes (lcd_begin Transport.reliable w).trace =
      writes w.trace ++
        ([w.regs._backlightval] ++
         nibbleBytes w.regs._backlightval 0x30 ++ nibbleBytes w.regs._backlightval 0x30 ++
         nibbleBytes w.regs._backlightval 0x30 ++ nibbleBytes w.regs._backlightval 0x20 ++
         sendBytes w.regs._backlightval
           (LCD_FUNCTIONSET ||| displayFunctionFor w.regs._rows w.regs._charsize) 0 ++
         sendBytes w.regs._backlightval (LCD_DISPLAYCONTROL ||| 0x04) 0 ++
         sendBytes w.regs._backlightval LCD_CLEARDISPLAY 0 ++
         sendBytes w.regs._backlightval
           (LCD_ENTRYMODESET ||| (LCD_ENTRYLEFT ||| LCD_ENTRYSHIFTDECREMENT)) 0 ++
         sendBytes w.regs._backlightval LCD_RETURNHOME 0) ∧
    countWrites (lcd_begin Transport.reliable w).trace = countWrites w.trace + 43 ∧
    (w.regs._rows = 2 → w.regs._charsize = LCD_5x8DOTS →
      LCD_FUNCTIONSET ||| displayFunctionFor w.regs._rows w.regs._charsize = 0x28) ∧
    LCD_DISPLAYCONTROL ||| 0x04 = 0x0C ∧ LCD_CLEARDISPLAY = 0x01 ∧
    LCD_ENTRYMODESET ||| (LCD_ENTRYLEFT ||| LCD_ENTRYSHIFTDECREMENT) = 0x06 ∧
    LCD_RETURNHOME = 0x02 := by
  have hw := writes_beginEvents w.regs hb
  refine ⟨?_, ?_, ?_, ?_, by decide, by decide, by decide, by decide⟩
  · rw [run_begin_reliable]
    rfl
  · rw [run_begin_reliable]
    simp only [Outcome.trace, writes_append, hw]
  · rw [run_begin_reliable]
    simp only [Outcome.trace, countWrites, writes_append, hw, List.length_append]
    rfl
  · intro hr hc
    rw [hr, hc]
    decide

theorem lcd_begin_power_up_sequence_witness :
    ((⟨initGlobals, []⟩ : World).regs._backlightval = 0x00 ∨
      (⟨initGlobals, []⟩ : World).regs._backlightval = 0x08) ∧
    writes (lcd_begin Transport.reliable ⟨initGlobals, []⟩).trace =
      [0x08,
       0x38, 0x3C, 0x38, 0x38, 0x3C, 0x38, 0x38, 0x3C, 0x38,
       0x28, 0x2C, 0x28,
       0x28, 0x2C, 0x28, 0x88, 0x8C, 0x88,
       0x08, 0x0C, 0x08, 0xC8, 0xCC, 0xC8,
       0x08, 0x0C, 0x08, 0x18, 0x1C, 0x18,
       0x08, 0x0C, 0x08, 0x68, 0x6C, 0x68,
       0x08, 0x0C, 0x08, 0x28, 0x2C, 0x28] :=
  ⟨Or.inr rfl, (lcd_begin_power_up_sequence ⟨initGlobals, []⟩ (Or.inr rfl)).2.1⟩

/-! ## Cursor positioning -/

/-- C4 (the code departs from the claim): with 2 configured rows,
`lcd_setCursor(0, 2)` is not clamped to the last row. It sends
`0x80 | (0 + 0x14) = 0x94`, the base address of a third row, where the claim
has `0x80 | (0 + 0x40) = 0xC0`; `lcd_setCursor(0, 3)` is clamped and sends
`0xC0`. -/
theorem lcd_setCursor_row_equal_rows_not_clamped :
    writes (lcd_setCursor 0 2 Transport.reliable ⟨exampleGlobals, []⟩).trace =
      sendBytes 0x08 0x94 0 ∧
    writes (lcd_setCursor 0 2 Transport.reliable ⟨exampleGlobals, []⟩).trace ≠
      sendBytes 0x08 0xC0 0 ∧
    writes (lcd_setCursor 0 3 Transport.reliable ⟨exampleGlobals, []⟩).trace =
      sendBytes 0x08 0xC0 0 ∧
    writes (lcd_setCursor 0 1 Transport.reliable ⟨exampleGlobals, []⟩).trace =
      sendBytes 0x08 0xC0 0 ∧
    writes (lcd_setCursor 0 0 Transport.reliable ⟨exampleGlobals, []⟩).trace =
      sendBytes 0x08 0x80 0 := by
  decide

/-! ## Flag-group mutators -/

/-- C6 (the code departs from the claim): after `lcd_begin`, `lcd_rightToLeft`
clears bit `0x02` of `_displaymode`, but the command byte it sends is
`LCD_ENTRYMODESET | _displaymode = 0x06`, in which bit `0x02` is set because
`LCD_ENTRYMODESET` itself is `0x06`; `lcd_leftToRight` sends the same byte. -/
theorem lcd_rightToLeft_sends_direction_bit_set :
    lcd_rightToLeft Transport.reliable ⟨exampleGlobals, []⟩ =
      lcd_command 0x06 Transport.reliable
        ⟨{ exampleGlobals with _displaymode := 0x00 }, []⟩ ∧
    lcd_leftToRight Transport.reliable ⟨exampleGlobals, []⟩ =
      lcd_command 0x06 Transport.reliable ⟨exampleGlobals, []⟩ ∧
    writes (lcd_rightToLeft Transport.reliable ⟨exampleGlobals, []⟩).trace =
      writes (lcd_leftToRight Transport.reliable ⟨exampleGlobals, []⟩).trace ∧
    0x06 &&& LCD_ENTRYLEFT = LCD_ENTRYLEFT := by
  decide

theorem command_regs (v : Nat) (t : Transport) (w w1 : World)
    (h : lcd_command v t w = Outcome.done () w1) : w1.regs = w.regs := by
  have hi : Inv (fun g => g = w.regs) (fun _ => True) (lcd_command v) :=
    inv_send v 0 fun _ _ _ _ => trivial
  obtain ⟨_, _, _, h3⟩ := hi t w rfl
  exact h3 () w1 h

set_option maxRecDepth 100000 in
theorem flag_bytes : ∀ x < 256, ∀ k < 5,
    u8 (x ||| k) = x ||| k ∧ u8 (x &&& cnot k) = x &&& (0xFF - k) ∧
    u8 (LCD_DISPLAYCONTROL ||| (x ||| k)) = LCD_DISPLAYCONTROL ||| (x ||| k) ∧
    u8 (LCD_DISPLAYCONTROL ||| (x &&& (0xFF - k))) = LCD_DISPLAYCONTROL ||| (x &&& (0xFF - k)) ∧
    u8 (LCD_ENTRYMODESET ||| (x ||| k)) = LCD_ENTRYMODESET ||| (x ||| k) ∧
    u8 (LCD_ENTRYMODESET ||| (x &&& (0xFF - k))) = LCD_ENTRYMODESET ||| (x &&& (0xFF - k)) := by
  decide

theorem resends_of (f upd : Globals → Globals) (c cmd : Globals → Nat) (w : World)
    (h1 : f w.regs = upd w.regs) (h2 : c (upd w.regs) = cmd (upd w.regs)) :
    Resends (setG f >>= fun _ => getG >>= fun g => lcd_command (c g)) upd cmd w := by
  have he : ∀ t : Transport, (setG f >>= fun _ => getG >>= fun g => lcd_command (c g)) t w =
      lcd_command (cmd (upd w.regs)) t { w with regs := upd w.regs } := by
    intro t
    simp only [run_bind, run_setG, run_getG, andThen_done, h1, h2]
  refine ⟨he, ?_, ?_⟩
  · intro t w1 h
    rw [he] at h
    exact command_regs _ _ _ _ h
  · rw [he]
    exact ⟨_, run_command_reliable _ _⟩

/-- C5: every flag-group mutator re-sends the entire updated flag group and
changes only its own bit. For every state with byte-sized flag groups, each of
`lcd_display` / `lcd_noDisplay` (bit `0x04`), `lcd_cursor` / `lcd_noCursor`
(bit `0x02`), `lcd_blink` / `lcd_noBlink` (bit `0x01`) sets or clears its bit
of `_displaycontrol`, changes nothing else in the state, and is then exactly
one `lcd_command` of `LCD_DISPLAYCONTROL | (new _displaycontrol)`; likewise
`lcd_leftToRight` / `lcd_rightToLeft` (bit `0x02`) and `lcd_autoscroll` /
`lcd_noAutoscroll` (bit `0x01`) on `_displaymode` with `LCD_ENTRYMODESET`.
`lcd_display` followed by `lcd_blink` sends the two commands
`LCD_DISPLAYCONTROL | (c | 0x04)` and `LCD_DISPLAYCONTROL | (c | 0x04 | 0x01)`,
and the second has both the display-on bit and the blink bit set. -/
theorem flag_mutators_resend_whole_group (w : World)
    (hc : w.regs._displaycontrol < 256) (hm : w.regs._displaymode < 256) :
    Resends lcd_display
      (fun g => { g with _displaycontrol := g._displaycontrol ||| LCD_DISPLAYON })
      (fun g => LCD_DISPLAYCONTROL ||| g._displaycontrol) w ∧
    Resends lcd_noDisplay
      (fun g => { g with _displaycontrol := g._displaycontrol &&& (0xFF - LCD_DISPLAYON) })
      (fun g => LCD_DISPLAYCONTROL ||| g._displaycontrol) w ∧
    Resends lcd_cursor
      (fun g => { g with _displaycontrol := g._displaycontrol ||| LCD_CURSORON })
      (fun g => LCD_DISPLAYCONTROL ||| g._displaycontrol) w ∧
    Resends lcd_noCursor
      (fun g => { g with _displaycontrol := g._displaycontrol &&& (0xFF - LCD_CURSORON) })
      (fun g => LCD_DISPLAYCONTROL ||| g._displaycontrol) w ∧
    Resends lcd_blink
      (fun g => { g with _displaycontrol := g._displaycontrol ||| LCD_BLINKON })
      (fun g => LCD_DISPLAYCONTROL ||| g._displaycontrol) w ∧
    Resends lcd_noBlink
      (fun g => { g with _displaycontrol := g._displaycontrol &&& (0xFF - LCD_BLINKON) })
      (fun g => LCD_DISPLAYCONTROL ||| g._displaycontrol) w ∧
    Resends lcd_leftToRight
      (fun g => { g with _displaymode := g._displaymode ||| LCD_ENTRYLEFT })
      (fun g => LCD_ENTRYMODESET ||| g._displaymode) w ∧
    Resends lcd_rightToLeft
      (fun g => { g with _displaymode := g._displaymode &&& (0xFF - LCD_ENTRYLEFT) })
      (fun g => LCD_ENTRYMODESET ||| g._displaymode) w ∧
    Resends lcd_autoscroll
      (fun g => { g with _displaymode := g._displaymode ||| LCD_ENTRYSHIFTINCREMENT })
      (fun g => LCD_ENTRYMODESET ||| g._displaymode) w ∧
    Resends lcd_noAutoscroll
      (fun g => { g with
        _displaymode := g._displaymode &&& (0xFF - LCD_ENTRYSHIFTINCREMENT) })
      (fun g => LCD_ENTRYMODESET ||| g._displaymode) w ∧
    ((lcd_display >>= fun _ => lcd_blink) Transport.reliable w).trace =
      ((lcd_command (LCD_DISPLAYCONTROL ||| (w.regs._displaycontrol ||| LCD_DISPLAYON))
          >>= fun _ =>
        lcd_command
          (LCD_DISPLAYCONTROL ||| (w.regs._displaycontrol ||| LCD_DISPLAYON ||| LCD_BLINKON)))
        Transport.reliable w).trace ∧
    (LCD_DISPLAYCONTROL ||| (w.regs._displaycontrol ||| LCD_DISPLAYON ||| LCD_BLINKON)) &&&
      (LCD_DISPLAYON ||| LCD_BLINKON) = LCD_DISPLAYON ||| LCD_BLINKON := by
  have c4 := flag_bytes _ hc LCD_DISPLAYON (by decide)
  have c2 := flag_bytes _ hc LCD_CURSORON (by decide)
  have c1 := flag_bytes _ hc LCD_BLINKON (by decide)
  have m2 := flag_bytes _ hm LCD_ENTRYLEFT (by decide)
  have m1 := flag_bytes _ hm LCD_ENTRYSHIFTINCREMENT (by decide)
  have c41 := flag_bytes (w.regs._displaycontrol ||| LCD_DISPLAYON)
    (by rw [← c4.1]; exact u8_lt _) LCD_BLINKON (by decide)
  refine ⟨?_, ?_, ?_, ?_, ?_, ?_, ?_, ?_, ?_, ?_, ?_, ?_⟩
  · exact resends_of _ _ _ _ w (by simp only [c4.1]) (by simp only [c4.2.2.1])
  · exact resends_of _ _ _ _ w (by simp only [c4.2.1]) (by simp only [c4.2.2.2.1])
  · exact resends_of _ _ _ _ w (by simp only [c2.1]) (by simp only [c2.2.2.1])
  · exact resends_of _ _ _ _ w (by simp only [c2.2.1]) (by simp only [c2.2.2.2.1])
  · exact resends_of _ _ _ _ w (by simp only [c1.1]) (by simp only [c1.2.2.1])
  · exact resends_of _ _ _ _ w (by simp only [c1.2.1]) (by simp only [c1.2.2.2.1])
  · exact resends_of _ _ _ _ w (by simp only [m2.1]) (by simp only [m2.2.2.2.2.1])
  · exact resends_of _ _ _ _ w (by simp only [m2.2.1]) (by simp only [m2.2.2.2.2.2])
  · exact resends_of _ _ _ _ w (by simp only [m1.1]) (by simp only [m1.2.2.2.2.1])
  · exact resends_of _ _ _ _ w (by simp only [m1.2.1]) (by simp only [m1.2.2.2.2.2])
  · simp [lcd_display, lcd_blink, Outcome.trace, c4.1, c4.2.2.1, c41.1, c41.2.2.1]
  · have hx : ∀ x < 256, (LCD_DISPLAYCONTROL ||| (x ||| LCD_DISPLAYON ||| LCD_BLINKON)) &&&
        (LCD_DISPLAYON ||| LCD_BLINKON) = LCD_DISPLAYON ||| LCD_BLINKON := by
      set_option maxRecDepth 100000 in decide
    exact hx _ hc

theorem flag_mutators_resend_whole_group_witness :
    ((⟨exampleGlobals, []⟩ : World).regs._displaycontrol < 256 ∧
      (⟨exampleGlobals, []⟩ : World).regs._displaymode < 256) ∧
    Resends lcd_noDisplay
      (fun g => { g with _displaycontrol := g._displaycontrol &&& (0xFF - LCD_DISPLAYON) })
      (fun g => LCD_DISPLAYCONTROL ||| g._displaycontrol) ⟨exampleGlobals, []⟩ :=
  ⟨⟨by decide, by decide⟩,
   (flag_mutators_resend_whole_group ⟨exampleGlobals, []⟩ (by decide) (by decide)).2.1⟩

/-! ## Custom characters -/

theorem cgram_address (location : Nat) :
    u8 (LCD_SETCGRAMADDR ||| (u8 (location &&& 0x7) <<< 3)) =
      LCD_SETCGRAMADDR ||| ((location &&& 0x07) <<< 3) := by
  have hs : location &&& 0x7 < 8 := Nat.lt_of_le_of_lt Nat.and_le_right (by decide)
  have hx : ∀ s < 8, u8 (LCD_SETCGRAMADDR ||| (u8 s <<< 3)) = LCD_SETCGRAMADDR ||| (s <<< 3) := by
    decide
  exact hx _ hs

theorem createChar_loop_step (charmap : List Nat) (n i c : Nat) (h : charmap[i]? = some c) :
    lcd_createChar.loop charmap (n + 1) i =
      (lcd_write c >>= fun _ => lcd_createChar.loop charmap n (i + 1)) := by
  rw [lcd_createChar.loop, h]

theorem createChar_loop_done (charmap : List Nat) (i : Nat) :
    lcd_createChar.loop charmap 0 i = pure () := by
  rw [lcd_createChar.loop]

theorem writes_sendEvents_length (a b v m : Nat) : (writes (sendEvents a b v m)).length = 6 :=
  rfl

/-- C7: for every slot argument and every pattern of (at least) 8 bytes,
`lcd_createChar` is exactly one command byte `0x40 | ((slot & 0x07) << 3)`
followed by exactly eight data-byte sends (`lcd_write`, mode bit `Rs`) of
`p0 ... p7` in that order, and nothing else: on an acknowledging transport it
returns with the globals unchanged after 54 transport writes. For a slot in
`0..7` the command byte is `0x40 | (slot << 3)`; a larger slot argument is
reduced to its low three bits. -/
theorem lcd_createChar_command_then_eight_data
    (location p0 p1 p2 p3 p4 p5 p6 p7 : Nat) (rest : List Nat) (w : World) :
    lcd_createChar location (p0 :: p1 :: p2 :: p3 :: p4 :: p5 :: p6 :: p7 :: rest) =
      (lcd_command (LCD_SETCGRAMADDR ||| ((location &&& 0x07) <<< 3)) >>= fun _ =>
        lcd_write p0 >>= fun _ => lcd_write p1 >>= fun _ => lcd_write p2 >>= fun _ =>
        lcd_write p3 >>= fun _ => lcd_write p4 >>= fun _ => lcd_write p5 >>= fun _ =>
        lcd_write p6 >>= fun _ => lcd_write p7 >>= fun _ => pure ()) ∧
    (∃ evs,
      lcd_createChar location (p0 :: p1 :: p2 :: p3 :: p4 :: p5 :: p6 :: p7 :: rest)
          Transport.reliable w = Outcome.done () { w with trace := w.trace ++ evs } ∧
      (writes evs).length = 54) ∧
    LCD_SETCGRAMADDR = 0x40 ∧ Rs = 0x01 ∧
    (location ≤ 7 → (location &&& 0x07) = location) := by
  have h1 : lcd_createChar.loop (p0 :: p1 :: p2 :: p3 :: p4 :: p5 :: p6 :: p7 :: rest) 8 0 =
      (lcd_write p0 >>= fun _ => lcd_write p1 >>= fun _ => lcd_write p2 >>= fun _ =>
        lcd_write p3 >>= fun _ => lcd_write p4 >>= fun _ => lcd_write p5 >>= fun _ =>
        lcd_write p6 >>= fun _ => lcd_write p7 >>= fun _ => pure ()) := by
    rw [createChar_loop_step _ 7 0 p0 (by simp), createChar_loop_step _ 6 1 p1 (by simp),
      createChar_loop_step _ 5 2 p2 (by simp), createChar_loop_step _ 4 3 p3 (by simp),
      createChar_loop_step _ 3 4 p4 (by simp), createChar_loop_step _ 2 5 p5 (by simp),
      createChar_loop_step _ 1 6 p6 (by simp), createChar_loop_step _ 0 7 p7 (by simp),
      createChar_loop_done]
  have h2 : lcd_createChar location (p0 :: p1 :: p2 :: p3 :: p4 :: p5 :: p6 :: p7 :: rest) =
      (lcd_command (LCD_SETCGRAMADDR ||| ((location &&& 0x07) <<< 3)) >>= fun _ =>
        lcd_write p0 >>= fun _ => lcd_write p1 >>= fun _ => lcd_write p2 >>= fun _ =>
        lcd_write p3 >>= fun _ => lcd_write p4 >>= fun _ => lcd_write p5 >>= fun _ =>
        lcd_write p6 >>= fun _ => lcd_write p7 >>= fun _ => pure ()) := by
    simp only [lcd_createChar, cgram_address, h1]
  refine ⟨h2, ?_, rfl, rfl, ?_⟩
  · rw [h2]
    refine ⟨sendEvents w.regs._addr w.regs._backlightval
        (LCD_SETCGRAMADDR ||| ((location &&& 0x07) <<< 3)) 0 ++
      (sendEvents w.regs._addr w.regs._backlightval p0 Rs ++
      (sendEvents w.regs._addr w.regs._backlightval p1 Rs ++
      (sendEvents w.regs._addr w.regs._backlightval p2 Rs ++
      (sendEvents w.regs._addr w.regs._backlightval p3 Rs ++
      (sendEvents w.regs._addr w.regs._backlightval p4 Rs ++
      (sendEvents w.regs._addr w.regs._backlightval p5 Rs ++
      (sendEvents w.regs._addr w.regs._backlightval p6 Rs ++
      sendEvents w.regs._addr w.regs._backlightval p7 Rs))))))), ?_, ?_⟩
    · simp only [run_bind, run_command_reliable, run_write_reliable, run_pure, andThen_done,
        List.append_assoc]
    · simp only [writes_append, List.length_append, writes_sendEvents_length]
  · intro h
    have hx : ∀ s < 8, s &&& 0x07 = s := by decide
    exact hx _ (by omega)

/-! ## Function flags -/

theorem displayFunctionFor_two_line (rows charsize : Nat) (h : rows > 1) :
    displayFunctionFor rows charsize = 0x08 := by
  simp only [displayFunctionFor]
  split_ifs <;> first | omega | rfl

theorem displayFunctionFor_tall_font (rows charsize : Nat) (h : charsize ≠ 0 ∧ rows = 1) :
    displayFunctionFor rows charsize = 0x04 := by
  simp only [displayFunctionFor]
  split_ifs <;> first | omega | rfl

theorem displayFunctionFor_plain (rows charsize : Nat) (h1 : ¬ rows > 1)
    (h2 : ¬ (charsize ≠ 0 ∧ rows = 1)) : displayFunctionFor rows charsize = 0x00 := by
  simp only [displayFunctionFor]
  split_ifs
  rfl

/-- C8: for every row count and character size, `lcd_begin` (on an
acknowledging transport) returns with `_displayfunction` holding flags in which
the multi-line bit `0x08` is set exactly when `rows > 1`, the 5x10 font bit
`0x04` exactly when `charsize != 0` and `rows == 1`, the 8-bit-bus bit `0x10`
is clear and no other bit is set, so that the two bits are never both set; and
the 14th to 19th byte it writes are the command transfer of
`LCD_FUNCTIONSET | _displayfunction`. -/
theorem lcd_begin_function_flags (w : World) :
    ∃ w1, lcd_begin Transport.reliable w = Outcome.done () w1 ∧
      (w1.regs._displayfunction &&& LCD_2LINE = LCD_2LINE ↔ w.regs._rows > 1) ∧
      (w1.regs._displayfunction &&& LCD_5x10DOTS = LCD_5x10DOTS ↔
        (w.regs._charsize ≠ 0 ∧ w.regs._rows = 1)) ∧
      w1.regs._displayfunction &&& LCD_8BITMODE = 0 ∧
      w1.regs._displayfunction ||| (LCD_2LINE ||| LCD_5x10DOTS) = LCD_2LINE ||| LCD_5x10DOTS ∧
      w1.regs._displayfunction ≠ LCD_2LINE ||| LCD_5x10DOTS ∧
      ∃ pre post, writes w1.trace =
          writes w.trace ++ pre ++
            writes (lcd_command (LCD_FUNCTIONSET ||| w1.regs._displayfunction)
              Transport.reliable ⟨w.regs, []⟩).trace ++ post ∧
        pre.length = 13 ∧ post.length = 24 := by
  refine ⟨_, run_begin_reliable w, ?_⟩
  have hu : u8 (LCD_FUNCTIONSET ||| displayFunctionFor w.regs._rows w.regs._charsize) =
      LCD_FUNCTIONSET ||| displayFunctionFor w.regs._rows w.regs._charsize := by
    rcases displayFunctionFor_cases w.regs._rows w.regs._charsize with h | h | h <;>
      rw [h] <;> rfl
  have ht : ∃ pre post, writes (w.trace ++ beginEvents w.regs) =
      writes w.trace ++ pre ++
        writes (lcd_command (LCD_FUNCTIONSET ||| displayFunctionFor w.regs._rows w.regs._charsize)
          Transport.reliable ⟨w.regs, []⟩).trace ++ post ∧
      pre.length = 13 ∧ post.length = 24 := by
    refine ⟨writes ([Event.install w.regs._gpio_sda w.regs._gpio_scl, Event.delay 50000,
        Event.write w.regs._addr (u8 (w.regs._backlightval ||| w.regs._backlightval)),
        Event.delay 1000000] ++
      nibbleEvents w.regs._addr w.regs._backlightval (u8 (0x03 <<< 4)) ++ [Event.delay 4500] ++
      nibbleEvents w.regs._addr w.regs._backlightval (u8 (0x03 <<< 4)) ++ [Event.delay 4500] ++
      nibbleEvents w.regs._addr w.regs._backlightval (u8 (0x03 <<< 4)) ++ [Event.delay 150] ++
      nibbleEvents w.regs._addr w.regs._backlightval (u8 (0x02 <<< 4))),
      writes (sendEvents w.regs._addr w.regs._backlightval
        (u8 (LCD_DISPLAYCONTROL |||
          u8 (u8 (LCD_DISPLAYON ||| LCD_CURSOROFF ||| LCD_BLINKOFF) ||| LCD_DISPLAYON))) 0 ++
      sendEvents w.regs._addr w.regs._backlightval LCD_CLEARDISPLAY 0 ++ [Event.delay 2000] ++
      sendEvents w.regs._addr w.regs._backlightval
        (u8 (LCD_ENTRYMODESET ||| u8 (LCD_ENTRYLEFT ||| LCD_ENTRYSHIFTDECREMENT))) 0 ++
      sendEvents w.regs._addr w.regs._backlightval LCD_RETURNHOME 0 ++ [Event.delay 2000]),
      ?_, ?_, ?_⟩
    · simp only [beginEvents, hu, run_command_reliable, Outcome.trace, writes_append,
        List.nil_append, List.append_assoc]
    · simp only [writes_append, List.length_append, writes_nibbleEvents, writes_nil,
        writes_write_cons, writes_delay_cons, writes_install_cons, List.length_cons,
        List.length_nil]
    · simp only [writes_append, List.length_append, writes_sendEvents_length, writes_nil,
        writes_delay_cons, List.length_nil]
  refine ⟨?_, ?_, ?_, ?_, ?_, ht⟩
  · show displayFunctionFor w.regs._rows w.regs._charsize &&& LCD_2LINE = LCD_2LINE ↔ _
    constructor
    · intro h
      by_contra h1
      by_cases h2 : w.regs._charsize ≠ 0 ∧ w.regs._rows = 1
      · rw [displayFunctionFor_tall_font _ _ h2] at h
        exact absurd h (by decide)
      · rw [displayFunctionFor_plain _ _ h1 h2] at h
        exact absurd h (by decide)
    · intro h
      rw [displayFunctionFor_two_line _ _ h]
      rfl
  · show displayFunctionFor w.regs._rows w.regs._charsize &&& LCD_5x10DOTS = LCD_5x10DOTS ↔ _
    constructor
    · intro h
      by_contra h2
      by_cases h1 : w.regs._rows > 1
      · rw [displayFunctionFor_two_line _ _ h1] at h
        exact absurd h (by decide)
      · rw [displayFunctionFor_plain _ _ h1 h2] at h
        exact absurd h (by decide)
    · intro h
      rw [displayFunctionFor_tall_font _ _ h]
      rfl
  · show displayFunctionFor w.regs._rows w.regs._charsize &&& LCD_8BITMODE = 0
    rcases displayFunctionFor_cases w.regs._rows w.regs._charsize with h | h | h <;>
      rw [h] <;> rfl
  · show displayFunctionFor w.regs._rows w.regs._charsize ||| _ = _
    rcases displayFunctionFor_cases w.regs._rows w.regs._charsize with h | h | h <;>
      rw [h] <;> rfl
  · show displayFunctionFor w.regs._rows w.regs._charsize ≠ _
    rcases displayFunctionFor_cases w.regs._rows w.regs._charsize with h | h | h <;>
      rw [h] <;> decide

/-! ## Printing -/

theorem print_program (s rest : List Nat) (hs : ∀ c ∈ s, c ≠ 0) :
    lcd_print (s ++ 0 :: rest) = s.foldr (fun c k => lcd_write c >>= fun _ => k) (pure ()) := by
  induction s with
  | nil => simp [lcd_print]
  | cons c s ih =>
    have hc : c ≠ 0 := hs c (by simp)
    have hs1 : ∀ x ∈ s, x ≠ 0 := fun x hx => hs x (by simp [hx])
    simp only [List.cons_append, lcd_print, hc, if_false, List.foldr_cons, List.append_eq,
      ih hs1]

theorem run_print_reliable (s : List Nat) (w : World) :
    ∃ evs, (s.foldr (fun c k => lcd_write c >>= fun _ => k) (pure ()) : LcdM Unit)
        Transport.reliable w = Outcome.done () { w with trace := w.trace ++ evs } ∧
      (writes evs).length = 6 * s.length := by
  induction s generalizing w with
  | nil => exact ⟨[], by simp, rfl⟩
  | cons c s ih =>
    obtain ⟨evs, h1, h2⟩ := ih { w with
      trace := w.trace ++ sendEvents w.regs._addr w.regs._backlightval c Rs }
    refine ⟨sendEvents w.regs._addr w.regs._backlightval c Rs ++ evs, ?_, ?_⟩
    · simp only [List.foldr_cons, run_bind, run_write_reliable, andThen_done, h1,
        List.append_assoc]
    · simp only [writes_append, List.length_append, writes_sendEvents_length, h2,
        List.length_cons]
      omega

/-- C9: for every NUL-terminated byte string (the bytes `s`, none of them 0,
followed by a 0 and whatever lies behind it), `lcd_print` is exactly one
`lcd_write` (data-byte send, mode bit `Rs`) per byte of `s`, in order; on an
acknowledging transport it terminates and returns with every global unchanged
after `6 * length s` transport writes. The empty string emits nothing. For
"Hi" it sends the data bytes `0x48` then `0x69`. -/
theorem lcd_print_one_write_per_char (s rest : List Nat) (hs : ∀ c ∈ s, c ≠ 0) (w : World) :
    lcd_print (s ++ 0 :: rest) = s.foldr (fun c k => lcd_write c >>= fun _ => k) (pure ()) ∧
    (∃ evs, lcd_print (s ++ 0 :: rest) Transport.reliable w =
        Outcome.done () { w with trace := w.trace ++ evs } ∧
      (writes evs).length = 6 * s.length) ∧
    (∀ t : Transport, lcd_print (0 :: rest) t w = Outcome.done () w) ∧
    lcd_print [0x48, 0x69, 0] =
      (lcd_write 0x48 >>= fun _ => lcd_write 0x69 >>= fun _ => pure ()) := by
  refine ⟨print_program s rest hs, ?_, ?_, ?_⟩
  · rw [print_program s rest hs]
    exact run_print_reliable s w
  · intro t
    simp [lcd_print]
  · exact print_program [0x48, 0x69] [] (by decide)

theorem lcd_print_one_write_per_char_witness :
    (∀ c ∈ [0x48, 0x69], c ≠ 0) ∧
    lcd_print ([0x48, 0x69] ++ 0 :: []) =
      [0x48, 0x69].foldr (fun c k => lcd_write c >>= fun _ => k) (pure ()) :=
  ⟨by decide,
   (lcd_print_one_write_per_char [0x48, 0x69] [] (by decide) ⟨exampleGlobals, []⟩).1⟩

/-! ## Transport failures -/

theorem countWrites_cons (e : Event) (es : List Event) :
    countWrites (e :: es) = countWrites [e] + countWrites es :=
  countWrites_append [e] es

/-- When the transport rejects an event, the rejected event is the last one
recorded: a write that is not acknowledged is the last write attempted. -/
theorem firstReject_some_count (t : Transport) (xs p : List Event) (n : Nat)
    (h : firstReject t n xs = some p) (k : Nat) (hk1 : n ≤ k) (hk2 : k < n + countWrites p)
    (hf : t.writeOk k = false) : n + countWrites p = k + 1 := by
  induction xs generalizing n p with
  | nil => simp [firstReject] at h
  | cons e es ih =>
    simp only [firstReject] at h
    by_cases ha : e.accepted t n
    · rw [if_pos ha] at h
      cases hr : firstReject t (n + countWrites [e]) es with
      | none => simp [hr] at h
      | some q =>
        rw [hr] at h
        simp only [Option.map_some', Option.some.injEq] at h
        subst h
        rw [countWrites_cons] at hk2 ⊢
        cases e with
        | write a d =>
          have h1 : countWrites [Event.write a d] = 1 := rfl
          rw [h1] at hk2 hr ⊢
          have hne : k ≠ n := by
            rintro rfl
            simp only [Event.accepted] at ha
            rw [ha] at hf
            exact Bool.noConfusion hf
          have := ih q (n + 1) hr (by omega) (by omega)
          omega
        | install a b =>
          have h1 : countWrites [Event.install a b] = 0 := rfl
          rw [h1] at hk2 hr ⊢
          have := ih q (n + 0) hr (by omega) (by omega)
          omega
        | delay us =>
          have h1 : countWrites [Event.delay us] = 0 := rfl
          rw [h1] at hk2 hr ⊢
          have := ih q (n + 0) hr (by omega) (by omega)
          omega
    · rw [if_neg ha] at h
      simp only [Option.some.injEq] at h
      subst h
      cases e with
      | write a d =>
        have h1 : countWrites [Event.write a d] = 1 := rfl
        rw [h1] at hk2 ⊢
        omega
      | install a b =>
        have h1 : countWrites [Event.install a b] = 0 := rfl
        rw [h1] at hk2
        omega
      | delay us => simp [Event.accepted] at ha

/-- When the transport rejects nothing, every write was acknowledged. -/
theorem firstReject_none_ack (t : Transport) (xs : List Event) (n : Nat)
    (h : firstReject t n xs = none) (k : Nat) (hk1 : n ≤ k) (hk2 : k < n + countWrites xs) :
    t.writeOk k = true := by
  induction xs generalizing n with
  | nil => simp [countWrites, writes] at hk2; omega
  | cons e es ih =>
    simp only [firstReject] at h
    by_cases ha : e.accepted t n
    · rw [if_pos ha] at h
      have hr : firstReject t (n + countWrites [e]) es = none := by
        cases hq : firstReject t (n + countWrites [e]) es with
        | none => rfl
        | some q => simp [hq] at h
      rw [countWrites_cons] at hk2
      cases e with
      | write a d =>
        have h1 : countWrites [Event.write a d] = 1 := rfl
        rw [h1] at hk2 hr
        by_cases hkn : k = n
        · subst hkn
          simpa [Event.accepted] using ha
        · exact ih (n + 1) hr (by omega) (by omega)
      | install a b =>
        have h1 : countWrites [Event.install a b] = 0 := rfl
        rw [h1] at hk2 hr
        exact ih (n + 0) hr (by omega) (by omega)
      | delay us =>
        have h1 : countWrites [Event.delay us] = 0 := rfl
        rw [h1] at hk2 hr
        exact ih (n + 0) hr (by omega) (by omega)
    · rw [if_neg ha] at h
      exact Option.noConfusion h

/-- The first write that is not acknowledged ends the trace: with the driver
installed and the writes before index `k` acknowledged, a trace with more than
`k` writes is cut right after its write number `k`. -/
theorem firstReject_at (t : Transport) (xs : List Event) (n k : Nat) (hi : t.installOk = true)
    (hok : ∀ j, n ≤ j → j < k → t.writeOk j = true) (hf : t.writeOk k = false)
    (hk1 : n ≤ k) (hk2 : k < n + countWrites xs) :
    ∃ p, firstReject t n xs = some p ∧ writes p = (writes xs).take (k + 1 - n) := by
  induction xs generalizing n with
  | nil => simp [countWrites, writes] at hk2; omega
  | cons e es ih =>
    rw [countWrites_cons] at hk2
    cases e with
    | write a d =>
      have h1 : countWrites [Event.write a d] = 1 := rfl
      rw [h1] at hk2
      by_cases hkn : k = n
      · subst hkn
        refine ⟨[Event.write a d], ?_, ?_⟩
        · simp [firstReject, Event.accepted, hf]
        · simp [writes]
      · have ha : t.writeOk n = true := hok n (Nat.le_refl _) (by omega)
        obtain ⟨p, hp1, hp2⟩ := ih (n + 1) (fun j h1 h2 => hok j (by omega) h2) (by omega)
          (by omega)
        refine ⟨Event.write a d :: p, ?_, ?_⟩
        · simp [firstReject, Event.accepted, ha, h1, hp1]
        · have hs : k + 1 - n = (k + 1 - (n + 1)) + 1 := by omega
          rw [writes_write_cons, writes_write_cons, hp2, hs, List.take_succ_cons]
    | install a b =>
      have h1 : countWrites [Event.install a b] = 0 := rfl
      rw [h1] at hk2
      obtain ⟨p, hp1, hp2⟩ := ih n hok hk1 (by omega)
      refine ⟨Event.install a b :: p, ?_, ?_⟩
      · simp [firstReject, Event.accepted, hi, h1, hp1]
      · rw [writes_install_cons, writes_install_cons, hp2]
    | delay us =>
      have h1 : countWrites [Event.delay us] = 0 := rfl
      rw [h1] at hk2
      obtain ⟨p, hp1, hp2⟩ := ih n hok hk1 (by omega)
      refine ⟨Event.delay us :: p, ?_, ?_⟩
      · simp [firstReject, Event.accepted, h1, hp1]
      · rw [writes_delay_cons, writes_delay_cons, hp2]

theorem countWrites_beginEvents (g : Globals) : countWrites (beginEvents g) = 43 := by
  simp only [countWrites, beginEvents, writes_append, List.length_append, writes_nibbleEvents,
    writes_sendEvents_length, writes_nil, writes_write_cons, writes_delay_cons,
    writes_install_cons, List.length_cons, List.length_nil]

theorem exec_cut (c : Call) (t : Transport) (g : Globals) :
    c.exec t ⟨g, []⟩ = (c.exec Transport.reliable ⟨g, []⟩).cut t :=
  (lawful_exec c).2 t ⟨g, []⟩ rfl

theorem begin_cut_at (t : Transport) (g : Globals) (k : Nat) (hi : t.installOk = true)
    (hok : ∀ j < k, t.writeOk j = true) (hf : t.writeOk k = false) (hk : k < 43) :
    ∃ tr, lcd_begin t ⟨g, []⟩ = Outcome.fault Fault.espError tr ∧
      writes tr = (writes (beginEvents g)).take (k + 1) := by
  have hc := exec_cut Call.begin t g
  simp only [Call.exec] at hc
  obtain ⟨p, hp1, hp2⟩ := firstReject_at t (beginEvents g) 0 k hi (fun j _ h => hok j h) hf
    (Nat.zero_le _) (by rw [countWrites_beginEvents]; omega)
  refine ⟨p, ?_, hp2⟩
  rw [hc, run_begin_reliable]
  simp [Outcome.cut, Outcome.trace, hp1]

/-- C10: a transport write failure aborts the operation in progress, with no
retry. For every public operation started with an empty trace, on every
transport: the run is the run on an acknowledging transport cut at the first
rejected call; if the write attempt number `k + 1` (index `k`) was made and not
acknowledged, the operation ends with `espError` and exactly `k + 1` writes
have been attempted, none after the failing one. For `lcd_begin` with the
driver installed, if the first write that fails has index `k < 43`, the bytes
attempted are the first `k + 1` of the 43 of the full sequence; in particular,
with `1 ≤ k ≤ 9` (a failure within the three `0x3` nibble transfers) they are
among the backlight byte and the `0x3` nibble bytes, so the `0x2` nibble,
FUNCTION_SET, DISPLAY_CONTROL, clear, ENTRY_MODE_SET and home are never sent. -/
theorem transport_failure_aborts (c : Call) (t : Transport) (g : Globals) :
    c.exec t ⟨g, []⟩ = (c.exec Transport.reliable ⟨g, []⟩).cut t ∧
    (∀ k, k < countWrites (c.exec t ⟨g, []⟩).trace → t.writeOk k = false →
      c.exec t ⟨g, []⟩ = Outcome.fault Fault.espError (c.exec t ⟨g, []⟩).trace ∧
      countWrites (c.exec t ⟨g, []⟩).trace = k + 1) ∧
    (∀ k, t.installOk = true → (∀ j < k, t.writeOk j = true) → t.writeOk k = false → k < 43 →
      ∃ tr, lcd_begin t ⟨g, []⟩ = Outcome.fault Fault.espError tr ∧
        writes tr = (writes (lcd_begin Transport.reliable ⟨g, []⟩).trace).take (k + 1) ∧
        ((g._backlightval = 0x00 ∨ g._backlightval = 0x08) → 1 ≤ k → k ≤ 9 →
          writes tr =
            ([g._backlightval] ++ nibbleBytes g._backlightval 0x30 ++
              nibbleBytes g._backlightval 0x30 ++
              nibbleBytes g._backlightval 0x30).take (k + 1))) := by
  have hc := exec_cut c t g
  refine ⟨hc, ?_, ?_⟩
  · intro k hk hf
    rw [hc] at hk ⊢
    cases hr : firstReject t 0 (c.exec Transport.reliable ⟨g, []⟩).trace with
    | none =>
      rw [cut_of_none t _ hr] at hk
      have := firstReject_none_ack t _ 0 hr k (Nat.zero_le _) (by omega)
      rw [this] at hf
      exact Bool.noConfusion hf
    | some p =>
      have hcut : (c.exec Transport.reliable ⟨g, []⟩).cut t = Outcome.fault Fault.espError p := by
        simp [Outcome.cut, hr]
      rw [hcut] at hk ⊢
      simp only [Outcome.trace] at hk ⊢
      have := firstReject_some_count t _ p 0 hr k (Nat.zero_le _) (by omega) hf
      exact ⟨trivial, by omega⟩
  · intro k hi hok hf hk
    obtain ⟨tr, h1, h2⟩ := begin_cut_at t g k hi hok hf hk
    refine ⟨tr, h1, ?_, ?_⟩
    · rw [h2, run_begin_reliable]
      simp [Outcome.trace]
    · intro hb _ hk9
      rw [h2, writes_beginEvents g hb]
      simp only [List.append_assoc]
      have hl : k + 1 ≤ ([g._backlightval] ++ (nibbleBytes g._backlightval 0x30 ++
          (nibbleBytes g._backlightval 0x30 ++ nibbleBytes g._backlightval 0x30))).length := by
        simp [nibbleBytes]
        omega
      have := @List.take_append_of_le_length _ _
        (nibbleBytes g._backlightval 0x20 ++
          (sendBytes g._backlightval
              (LCD_FUNCTIONSET ||| displayFunctionFor g._rows g._charsize) 0 ++
            (sendBytes g._backlightval (LCD_DISPLAYCONTROL ||| 0x04) 0 ++
              (sendBytes g._backlightval LCD_CLEARDISPLAY 0 ++
                (sendBytes g._backlightval
                    (LCD_ENTRYMODESET ||| (LCD_ENTRYLEFT ||| LCD_ENTRYSHIFTDECREMENT)) 0 ++
                  sendBytes g._backlightval LCD_RETURNHOME 0))))) _ hl
      simpa only [List.append_assoc] using this

/-- A transport that acknowledges every write except the third. -/
theorem transport_failure_aborts_witness :
    (2 < countWrites (Call.clear.exec ⟨true, fun n => n != 2⟩ ⟨exampleGlobals, []⟩).trace ∧
      (⟨true, fun n => n != 2⟩ : Transport).writeOk 2 = false) ∧
    (Call.clear.exec ⟨true, fun n => n != 2⟩ ⟨exampleGlobals, []⟩ =
        Outcome.fault Fault.espError
          (Call.clear.exec ⟨true, fun n => n != 2⟩ ⟨exampleGlobals, []⟩).trace ∧
      countWrites (Call.clear.exec ⟨true, fun n => n != 2⟩ ⟨exampleGlobals, []⟩).trace = 2 + 1) :=
  ⟨⟨by decide, by decide⟩,
   (transport_failure_aborts Call.clear ⟨true, fun n => n != 2⟩ exampleGlobals).2.1 2
     (by decide) (by decide)⟩

/-! ## Backlight switching -/

theorem run_backlight (t : Transport) (w : World) :
    lcd_backlight t w =
      if t.writeOk (countWrites w.trace) then
        Outcome.done ()
          { regs := { w.regs with _backlightval := 0x08 }
            trace := w.trace ++ [Event.write w.regs._addr 0x08] }
      else Outcome.fault Fault.espError (w.trace ++ [Event.write w.regs._addr 0x08]) := by
  simp only [lcd_backlight, run_bind, run_setG, andThen_done, run_expanderWrite]
  rfl

theorem run_noBacklight (t : Transport) (w : World) :
    lcd_noBacklight t w =
      if t.writeOk (countWrites w.trace) then
        Outcome.done ()
          { regs := { w.regs with _backlightval := 0x00 }
            trace := w.trace ++ [Event.write w.regs._addr 0x00] }
      else Outcome.fault Fault.espError (w.trace ++ [Event.write w.regs._addr 0x00]) := by
  simp only [lcd_noBacklight, run_bind, run_setG, andThen_done, run_expanderWrite]
  rfl

theorem setBacklight_on (v : Nat) (hv : v ≠ 0) : lcd_setBacklight v = lcd_backlight := by
  simp [lcd_setBacklight, hv]

theorem setBacklight_off : lcd_setBacklight 0 = lcd_noBacklight := by
  simp [lcd_setBacklight]

/-- C11: for every state and every transport, `lcd_backlight` sets
`_backlightval` to `0x08` and `lcd_noBacklight` sets it to `0x00`, and each
immediately attempts exactly one transport write, of the value 0 merged with
the new flag (`0x08`, respectively `0x00`); it returns when that write is
acknowledged, and no other global changes. `lcd_setBacklight v` is
`lcd_backlight` for every `v != 0` and `lcd_noBacklight` for `v == 0`. -/
theorem backlight_ops_write_new_flag (t : Transport) (w : World) :
    lcd_backlight t w =
      (if t.writeOk (countWrites w.trace) then
        Outcome.done ()
          { regs := { w.regs with _backlightval := 0x08 }
            trace := w.trace ++ [Event.write w.regs._addr 0x08] }
      else Outcome.fault Fault.espError (w.trace ++ [Event.write w.regs._addr 0x08])) ∧
    lcd_noBacklight t w =
      (if t.writeOk (countWrites w.trace) then
        Outcome.done ()
          { regs := { w.regs with _backlightval := 0x00 }
            trace := w.trace ++ [Event.write w.regs._addr 0x00] }
      else Outcome.fault Fault.espError (w.trace ++ [Event.write w.regs._addr 0x00])) ∧
    lcd_backlight Transport.reliable w =
      Outcome.done ()
        { regs := { w.regs with _backlightval := 0x08 }
          trace := w.trace ++ [Event.write w.regs._addr (0 ||| 0x08)] } ∧
    lcd_noBacklight Transport.reliable w =
      Outcome.done ()
        { regs := { w.regs with _backlightval := 0x00 }
          trace := w.trace ++ [Event.write w.regs._addr (0 ||| 0x00)] } ∧
    LCD_BACKLIGHT = 0x08 ∧ LCD_NOBACKLIGHT = 0x00 ∧
    (∀ v, v ≠ 0 → lcd_setBacklight v = lcd_backlight) ∧
    lcd_setBacklight 0 = lcd_noBacklight := by
  refine ⟨run_backlight t w, run_noBacklight t w, ?_, ?_, rfl, rfl, setBacklight_on,
    setBacklight_off⟩
  · rw [run_backlight]
    rfl
  · rw [run_noBacklight]
    rfl

/-- C12: backlight setting is idempotent. For every state, on an acknowledging
transport, two calls of `lcd_setBacklight(true)` in a row produce exactly two
expander writes, both `0x08`, and the globals after the second call are those
after the first; likewise two calls of `lcd_setBacklight(false)` with `0x00`. -/
theorem setBacklight_idempotent (w : World) :
    lcd_setBacklight 1 Transport.reliable w =
      Outcome.done ()
        { regs := { w.regs with _backlightval := 0x08 }
          trace := w.trace ++ [Event.write w.regs._addr 0x08] } ∧
    (lcd_setBacklight 1 >>= fun _ => lcd_setBacklight 1) Transport.reliable w =
      Outcome.done ()
        { regs := { w.regs with _backlightval := 0x08 }
          trace := w.trace ++ [Event.write w.regs._addr 0x08, Event.write w.regs._addr 0x08] } ∧
    lcd_setBacklight 0 Transport.reliable w =
      Outcome.done ()
        { regs := { w.regs with _backlightval := 0x00 }
          trace := w.trace ++ [Event.write w.regs._addr 0x00] } ∧
    (lcd_setBacklight 0 >>= fun _ => lcd_setBacklight 0) Transport.reliable w =
      Outcome.done ()
        { regs := { w.regs with _backlightval := 0x00 }
          trace := w.trace ++ [Event.write w.regs._addr 0x00, Event.write w.regs._addr 0x00] } ∧
    (∀ v w1, lcd_setBacklight v Transport.reliable w = Outcome.done () w1 →
      ∃ w2, lcd_setBacklight v Transport.reliable w1 = Outcome.done () w2 ∧
        w2.regs = w1.regs ∧
        writes w2.trace = writes w.trace ++ [w1.regs._backlightval, w1.regs._backlightval]) := by
  have hon : ∀ x : World, lcd_backlight Transport.reliable x =
      Outcome.done ()
        { regs := { x.regs with _backlightval := 0x08 }
          trace := x.trace ++ [Event.write x.regs._addr 0x08] } := by
    intro x
    rw [run_backlight]
    rfl
  have hoff : ∀ x : World, lcd_noBacklight Transport.reliable x =
      Outcome.done ()
        { regs := { x.regs with _backlightval := 0x00 }
          trace := x.trace ++ [Event.write x.regs._addr 0x00] } := by
    intro x
    rw [run_noBacklight]
    rfl
  have h1 : ∀ x : World, lcd_setBacklight 1 Transport.reliable x =
      Outcome.done ()
        { regs := { x.regs with _backlightval := 0x08 }
          trace := x.trace ++ [Event.write x.regs._addr 0x08] } := by
    intro x
    rw [setBacklight_on 1 (by decide), hon]
  have h0 : ∀ x : World, lcd_setBacklight 0 Transport.reliable x =
      Outcome.done ()
        { regs := { x.regs with _backlightval := 0x00 }
          trace := x.trace ++ [Event.write x.regs._addr 0x00] } := by
    intro x
    rw [setBacklight_off, hoff]
  refine ⟨h1 w, ?_, h0 w, ?_, ?_⟩
  · simp only [run_bind, h1, andThen_done, List.append_assoc, List.singleton_append]
  · simp only [run_bind, h0, andThen_done, List.append_assoc, List.singleton_append]
  · intro v w1 hw
    by_cases hv : v ≠ 0
    · rw [setBacklight_on v hv, hon] at hw
      rw [setBacklight_on v hv, hon]
      cases hw
      exact ⟨_, rfl, rfl, by
        simp only [writes_append, writes_write_cons, writes_nil, List.append_assoc,
          List.singleton_append]⟩
    · have hv0 : v = 0 := by omega
      subst hv0
      rw [setBacklight_off, hoff] at hw
      rw [setBacklight_off, hoff]
      cases hw
      exact ⟨_, rfl, rfl, by
        simp only [writes_append, writes_write_cons, writes_nil, List.append_assoc,
          List.singleton_append]⟩

/-! ## Single transfers, clear and home, initialisation -/

set_option maxRecDepth 100000 in
theorem pulse_bytes : ∀ n < 256, ∀ b1 < 2,
    u8 (n ||| 8 * b1) = n ||| 8 * b1 ∧
    u8 (u8 (n ||| En) ||| 8 * b1) = n ||| 0x04 ||| 8 * b1 ∧
    u8 (u8 (n &&& cnot En) ||| 8 * b1) = (n &&& (0xFF - 0x04)) ||| 8 * b1 := by
  decide

set_option maxRecDepth 100000 in
theorem pulse_shape : ∀ n < 256, n &&& 0x04 = 0 → ∀ b1 < 2,
    (n &&& (0xFF - 0x04)) ||| 8 * b1 = n ||| 8 * b1 ∧
    n ||| 0x04 ||| 8 * b1 = (n ||| 8 * b1) ||| 0x04 ∧
    (n ||| 8 * b1) &&& 0x04 = 0 := by
  decide

set_option maxRecDepth 100000 in
theorem pulse_backlight : ∀ n < 256, n &&& 0x08 = 0 → ∀ b1 < 2,
    (n ||| 8 * b1) &&& 0x08 = 8 * b1 := by
  decide

/-- C17: for every byte `n` with the enable bit `0x04` and bit `0x08` clear and
every backlight flag `b` in `{0x00, 0x08}`, `lcd_write4bits n` on an
acknowledging transport performs exactly three writes, `n | b`, then
`n | 0x04 | b` (enable high), then `(n & ~0x04) | b` (enable low), with a
1 us wait between the second and the third and a 50 us wait after the third;
the first and third bytes are equal, have the enable bit clear, and the second
is that byte with the enable bit set. -/
theorem lcd_write4bits_pulse (w : World) (n : Nat) (hn : n < 256) (h4 : n &&& 0x04 = 0)
    (h8 : n &&& 0x08 = 0)
    (hb : w.regs._backlightval = 0x00 ∨ w.regs._backlightval = 0x08) :
    lcd_write4bits n Transport.reliable w =
      Outcome.done () { w with trace := w.trace ++
        [Event.write w.regs._addr (n ||| w.regs._backlightval),
         Event.write w.regs._addr (n ||| 0x04 ||| w.regs._backlightval),
         Event.delay 1,
         Event.write w.regs._addr ((n &&& (0xFF - 0x04)) ||| w.regs._backlightval),
         Event.delay 50] } ∧
    (n &&& (0xFF - 0x04)) ||| w.regs._backlightval = n ||| w.regs._backlightval ∧
    n ||| 0x04 ||| w.regs._backlightval = (n ||| w.regs._backlightval) ||| 0x04 ∧
    (n ||| w.regs._backlightval) &&& 0x04 = 0 ∧
    (n ||| w.regs._backlightval) &&& 0x08 = w.regs._backlightval ∧ En = 0x04 := by
  obtain ⟨_, _, b1, hb1, _, hbe⟩ := flag_cases (Or.inl rfl : (0 : Nat) = 0 ∨ 0 = Rs) hb
  obtain ⟨p1, p2, p3⟩ := pulse_bytes n hn b1 hb1
  obtain ⟨p4, p5, p6⟩ := pulse_shape n hn h4 b1 hb1
  have p7 := pulse_backlight n hn h8 b1 hb1
  rw [hbe]
  refine ⟨?_, p4, p5, p6, p7, rfl⟩
  rw [run_write4bits_reliable, hbe]
  simp only [nibbleEvents, p1, p2, p3]

theorem lcd_write4bits_pulse_witness :
    (0x30 < 256 ∧ 0x30 &&& 0x04 = 0 ∧ 0x30 &&& 0x08 = 0 ∧
      ((⟨exampleGlobals, []⟩ : World).regs._backlightval = 0x00 ∨
        (⟨exampleGlobals, []⟩ : World).regs._backlightval = 0x08)) ∧
    lcd_write4bits 0x30 Transport.reliable ⟨exampleGlobals, []⟩ =
      Outcome.done () ⟨exampleGlobals,
        [Event.write 0x27 0x38, Event.write 0x27 0x3C, Event.delay 1,
         Event.write 0x27 0x38, Event.delay 50]⟩ :=
  ⟨⟨by decide, by decide, by decide, Or.inr rfl⟩,
   (lcd_write4bits_pulse ⟨exampleGlobals, []⟩ 0x30 (by decide) (by decide) (by decide)
      (Or.inr rfl)).1⟩

/-- C16: `lcd_init` does not touch hardware. For every argument tuple, on every
transport, it returns with the trace unchanged (no transport write, no call at
all), having stored the pins, the address, the column count, the row count and
the character size as given and set `_backlightval` to `0x08`; the first byte
a following `lcd_begin` writes to the expander is `0x08`. -/
theorem lcd_init_no_hardware (gpio_sda gpio_scl lcd_addr lcd_cols lcd_rows charsize : Nat)
    (t : Transport) (w : World) :
    lcd_init gpio_sda gpio_scl lcd_addr lcd_cols lcd_rows charsize t w =
      Outcome.done ()
        { regs := { w.regs with
            _gpio_sda := gpio_sda
            _gpio_scl := gpio_scl
            _addr := lcd_addr
            _cols := lcd_cols
            _rows := lcd_rows
            _charsize := charsize
            _backlightval := 0x08 }
          trace := w.trace } ∧
    ∃ rest,
      writes ((lcd_init gpio_sda gpio_scl lcd_addr lcd_cols lcd_rows charsize >>= fun _ =>
        lcd_begin) Transport.reliable w).trace = writes w.trace ++ 0x08 :: rest := by
  refine ⟨rfl, ?_⟩
  simp only [run_bind, lcd_init, run_setG, andThen_done, run_begin_reliable, Outcome.trace,
    writes_append, beginEvents, List.cons_append, writes_install_cons, writes_delay_cons,
    writes_write_cons, List.append_assoc]
  exact ⟨_, rfl⟩

/-! ## Frame conditions -/

section Keep
variable {I : Globals → Prop}

theorem keep_command (v : Nat) : Inv I (fun _ => True) (lcd_command v) :=
  inv_send v 0 fun _ _ _ _ => trivial

theorem keep_write (v : Nat) : Inv I (fun _ => True) (lcd_write v) :=
  inv_send v Rs fun _ _ _ _ => trivial

theorem keep_write4bits (n : Nat) : Inv I (fun _ => True) (lcd_write4bits n) :=
  inv_write4bits n fun _ _ _ _ => trivial

theorem keep_expanderWrite (d : Nat) : Inv I (fun _ => True) (lcd_expanderWrite d) :=
  inv_expanderWrite d fun _ _ => trivial

theorem keep_createChar_loop (charmap : List Nat) (n i : Nat) :
    Inv I (fun _ => True) (lcd_createChar.loop charmap n i) := by
  induction n generalizing i with
  | zero => exact inv_pure _
  | succ n ih =>
    unfold lcd_createChar.loop
    cases charmap[i]? with
    | none => exact inv_raise _
    | some c => exact inv_bind (keep_write _) fun _ => ih _

theorem keep_createChar (location : Nat) (charmap : List Nat) :
    Inv I (fun _ => True) (lcd_createChar location charmap) :=
  inv_bind (keep_command _) fun _ => keep_createChar_loop _ _ _

theorem keep_print (str : List Nat) : Inv I (fun _ => True) (lcd_print str) := by
  induction str with
  | nil => exact inv_raise _
  | cons c str ih =>
    unfold lcd_print
    by_cases h : c = 0
    · rw [if_pos h]; exact inv_pure _
    · rw [if_neg h]; exact inv_bind (keep_write _) fun _ => ih

theorem keep_setCursor (col row : Nat) : Inv I (fun _ => True) (lcd_setCursor col row) := by
  refine inv_getG_bind fun g _ => ?_
  show Inv _ _ (match row_offsets[if row > g._rows then u8i ((g._rows : Int) - 1) else row]? with
    | some off => lcd_command (u8 (LCD_SETDDRAMADDR ||| (col + off)))
    | none => raise Fault.outOfBounds)
  cases row_offsets[if row > g._rows then u8i ((g._rows : Int) - 1) else row]? with
  | none => exact inv_raise _
  | some off => exact keep_command _

theorem keep_clear : Inv I (fun _ => True) lcd_clear :=
  inv_bind (keep_command _) fun _ => inv_delay _ trivial

theorem keep_home : Inv I (fun _ => True) lcd_home :=
  inv_bind (keep_command _) fun _ => inv_delay _ trivial

theorem keep_update (f : Globals → Globals) (c : Globals → Nat) (hf : ∀ g, I g → I (f g)) :
    Inv I (fun _ => True) (setG f >>= fun _ => getG >>= fun g => lcd_command (c g)) :=
  inv_bind (inv_setG _ hf) fun _ => inv_getG_bind fun _ _ => keep_command _

/-- `lcd_begin` keeps every property of the globals that does not depend on
the three flag groups it assigns. -/
theorem keep_begin (h1 : ∀ g x, I g → I { g with _displayfunction := x })
    (h2 : ∀ g x, I g → I { g with _displaycontrol := x })
    (h3 : ∀ g x, I g → I { g with _displaymode := x }) :
    Inv I (fun _ => True) lcd_begin := by
  have hd : Inv I (fun _ => True) lcd_display := keep_update _ _ fun g hg => h2 g _ hg
  unfold lcd_begin
  repeat' first
    | with_reducible apply inv_getG_bind
    | with_reducible apply inv_bind
    | with_reducible intro _
    | with_reducible exact inv_pure _
    | with_reducible exact keep_command _
    | with_reducible exact hd
    | with_reducible exact keep_clear
    | with_reducible exact keep_home
    | with_reducible exact keep_expanderWrite _
    | with_reducible exact keep_write4bits _
    | exact inv_driver_install fun _ _ => trivial
    | exact inv_delay _ trivial
    | exact inv_setG _ fun g hg => h1 g _ hg
    | exact inv_setG _ fun g hg => h2 g _ hg
    | exact inv_setG _ fun g hg => h3 g _ hg
    | split

end Keep

/-- Every call that does not assign `_backlightval` keeps it, on every
transport. -/
theorem keep_backlight_exec (b : Nat) (c : Call) (hc : c.setsBacklight = false) :
    Inv (fun g => g._backlightval = b) (fun _ => True) c.exec := by
  cases c with
  | init sda scl addr cols rows charsize => exact absurd hc (by simp [Call.setsBacklight])
  | backlight => exact absurd hc (by decide)
  | noBacklight => exact absurd hc (by decide)
  | setBacklight v => exact absurd hc (by simp [Call.setsBacklight])
  | begin => exact keep_begin (fun _ _ h => h) (fun _ _ h => h) (fun _ _ h => h)
  | clear => exact keep_clear
  | home => exact keep_home
  | createChar l cm => exact keep_createChar l cm
  | load_custom_character l cm => exact keep_createChar l cm
  | setCursor col row => exact keep_setCursor col row
  | print s => exact keep_print s
  | write v => exact keep_write v
  | command v => exact keep_command v
  | scrollDisplayLeft => exact keep_command _
  | scrollDisplayRight => exact keep_command _
  | _ => exact keep_update _ _ fun _ h => h

/-- C15: turning the display off leaves the backlight state unchanged, and
more generally no public operation other than `lcd_init`, `lcd_backlight`,
`lcd_noBacklight` and `lcd_setBacklight` modifies `_backlightval`: on every
transport, from every state, whenever such an operation returns,
`_backlightval` is what it was. `lcd_noDisplay` is such an operation, and on an
acknowledging transport it does return. -/
theorem only_backlight_ops_modify_backlight (c : Call) (hc : c.setsBacklight = false)
    (t : Transport) (w : World) :
    (∀ w1, c.exec t w = Outcome.done () w1 → w1.regs._backlightval = w.regs._backlightval) ∧
    (∀ w1, lcd_noDisplay t w = Outcome.done () w1 →
      w1.regs._backlightval = w.regs._backlightval) ∧
    (∃ w1, lcd_noDisplay Transport.reliable w = Outcome.done () w1 ∧
      w1.regs._backlightval = w.regs._backlightval) ∧
    (∀ x : Call, x.setsBacklight = true ↔
      (∃ a b c d e f, x = Call.init a b c d e f) ∨ x = Call.backlight ∨ x = Call.noBacklight ∨
        ∃ v, x = Call.setBacklight v) := by
  have hk : ∀ (x : Call), x.setsBacklight = false → ∀ (t1 : Transport) (w1 : World),
      x.exec t1 w = Outcome.done () w1 → w1.regs._backlightval = w.regs._backlightval := by
    intro x hx t1 w1 h
    obtain ⟨_, _, _, h3⟩ := keep_backlight_exec w.regs._backlightval x hx t1 w rfl
    exact h3 () w1 h
  refine ⟨fun w1 h => hk c hc t w1 h, fun w1 h => hk Call.noDisplay rfl t w1 h, ?_, ?_⟩
  · have hr : ∃ w1, lcd_noDisplay Transport.reliable w = Outcome.done () w1 := by
      simp [lcd_noDisplay]
    obtain ⟨w1, h1⟩ := hr
    exact ⟨w1, h1, hk Call.noDisplay rfl Transport.reliable w1 h1⟩
  · intro x
    cases x <;> simp [Call.setsBacklight]

theorem only_backlight_ops_modify_backlight_witness :
    Call.noDisplay.setsBacklight = false ∧
    ∀ w1, Call.noDisplay.exec Transport.reliable ⟨exampleGlobals, []⟩ = Outcome.done () w1 →
      w1.regs._backlightval = 0x08 :=
  ⟨rfl,
   (only_backlight_ops_modify_backlight Call.noDisplay rfl Transport.reliable
      ⟨exampleGlobals, []⟩).1⟩

/-! ## Clear and home -/

/-- C14: for every state with backlight flag `0x00` or `0x08`, `lcd_clear` is
exactly one `lcd_command` transfer of `LCD_CLEARDISPLAY = 0x01` and `lcd_home`
exactly one of `LCD_RETURNHOME = 0x02` (mode bit clear), each followed by a
wait of 2000 us before the operation returns; neither changes any global:
flag groups, backlight flag and configuration are as before, on every
transport. -/
theorem lcd_clear_home_command_then_wait (w : World)
    (hb : w.regs._backlightval = 0x00 ∨ w.regs._backlightval = 0x08) :
    lcd_clear = (lcd_command LCD_CLEARDISPLAY >>= fun _ => ets_delay_us 2000) ∧
    lcd_home = (lcd_command LCD_RETURNHOME >>= fun _ => ets_delay_us 2000) ∧
    lcd_clear Transport.reliable w =
      Outcome.done () { w with
        trace := (lcd_command LCD_CLEARDISPLAY Transport.reliable w).trace ++
          [Event.delay 2000] } ∧
    lcd_home Transport.reliable w =
      Outcome.done () { w with
        trace := (lcd_command LCD_RETURNHOME Transport.reliable w).trace ++
          [Event.delay 2000] } ∧
    writes (lcd_clear Transport.reliable w).trace =
      writes w.trace ++ sendBytes w.regs._backlightval 0x01 0 ∧
    writes (lcd_home Transport.reliable w).trace =
      writes w.trace ++ sendBytes w.regs._backlightval 0x02 0 ∧
    (∀ d ∈ sendBytes w.regs._backlightval 0x01 0 ++ sendBytes w.regs._backlightval 0x02 0,
      d &&& Rs = 0) ∧
    (∀ (t : Transport) (w1 : World), lcd_clear t w = Outcome.done () w1 → w1.regs = w.regs) ∧
    (∀ (t : Transport) (w1 : World), lcd_home t w = Outcome.done () w1 → w1.regs = w.regs) ∧
    LCD_CLEARDISPLAY = 0x01 ∧ LCD_RETURNHOME = 0x02 := by
  have hc : ∀ (t : Transport) (w1 : World), lcd_clear t w = Outcome.done () w1 →
      w1.regs = w.regs := by
    intro t w1 h
    have hi : Inv (fun g => g = w.regs) (fun _ => True) lcd_clear := keep_clear
    obtain ⟨_, _, _, h3⟩ := hi t w rfl
    exact h3 () w1 h
  have hh : ∀ (t : Transport) (w1 : World), lcd_home t w = Outcome.done () w1 →
      w1.regs = w.regs := by
    intro t w1 h
    have hi : Inv (fun g => g = w.regs) (fun _ => True) lcd_home := keep_home
    obtain ⟨_, _, _, h3⟩ := hi t w rfl
    exact h3 () w1 h
  refine ⟨rfl, rfl, ?_, ?_, ?_, ?_, ?_, hc, hh, rfl, rfl⟩
  · simp only [run_clear_reliable, run_command_reliable, Outcome.trace, List.append_assoc]
  · simp only [run_home_reliable, run_command_reliable, Outcome.trace, List.append_assoc]
  · simp only [run_clear_reliable, Outcome.trace, writes_append, writes_delay_cons, writes_nil,
      List.append_nil]
    rw [writes_sendEvents _ _ LCD_CLEARDISPLAY 0 (by decide) (Or.inl rfl) hb]
    rfl
  · simp only [run_home_reliable, Outcome.trace, writes_append, writes_delay_cons, writes_nil,
      List.append_nil]
    rw [writes_sendEvents _ _ LCD_RETURNHOME 0 (by decide) (Or.inl rfl) hb]
    rfl
  · rcases hb with h | h <;> rw [h] <;> decide

theorem lcd_clear_home_command_then_wait_witness :
    ((⟨exampleGlobals, []⟩ : World).regs._backlightval = 0x00 ∨
      (⟨exampleGlobals, []⟩ : World).regs._backlightval = 0x08) ∧
    writes (lcd_clear Transport.reliable ⟨exampleGlobals, []⟩).trace =
      [0x08, 0x0C, 0x08, 0x18, 0x1C, 0x18] ∧
    writes (lcd_home Transport.reliable ⟨exampleGlobals, []⟩).trace =
      [0x08, 0x0C, 0x08, 0x28, 0x2C, 0x28] :=
  ⟨Or.inr rfl,
   (lcd_clear_home_command_then_wait ⟨exampleGlobals, []⟩ (Or.inr rfl)).2.2.2.2.1,
   (lcd_clear_home_command_then_wait ⟨exampleGlobals, []⟩ (Or.inr rfl)).2.2.2.2.2.1⟩

/-! ## Timing of the power-up sequence -/

theorem gapsFrom_beginEvents (g : Globals) :
    gapsFrom 0 (beginEvents g) =
      [50000, 1000000, 0, 1, 4550, 0, 1, 4550, 0, 1, 200, 0, 1,
       50, 0, 1, 50, 0, 1,
       50, 0, 1, 50, 0, 1,
       50, 0, 1, 50, 0, 1,
       2050, 0, 1, 50, 0, 1,
       50, 0, 1, 50, 0, 1] := by
  simp only [beginEvents, nibbleEvents, sendEvents, List.cons_append, List.nil_append,
    List.append_assoc, gapsFrom]

/-- C13: in the trace of `lcd_begin` (on an acknowledging transport) every
documented minimum delay is met. The trace starts with the driver
installation, a wait of 50000 us (at least 40000 us before the first transport
write), the backlight-only write, a wait of 1000000 us, the first `0x3` nibble
transfer, 4500 us, the second, 4500 us, the third, 150 us, and the `0x2` nibble
transfer. Counting for every write the time waited since the previous write:
50000 us before the first write, 1000000 us before the first write of the
first nibble transfer, 4550 us before the second and the third nibble transfer
(at least 4500), 200 us before the fourth (at least 150). -/
theorem lcd_begin_minimum_delays (w : World) :
    ∃ evs rest, (lcd_begin Transport.reliable w).trace = w.trace ++ evs ∧
      evs =
        [Event.install w.regs._gpio_sda w.regs._gpio_scl, Event.delay 50000,
         Event.write w.regs._addr (u8 (w.regs._backlightval ||| w.regs._backlightval)),
         Event.delay 1000000] ++
        (lcd_write4bits 0x30 Transport.reliable ⟨w.regs, []⟩).trace ++ [Event.delay 4500] ++
        (lcd_write4bits 0x30 Transport.reliable ⟨w.regs, []⟩).trace ++ [Event.delay 4500] ++
        (lcd_write4bits 0x30 Transport.reliable ⟨w.regs, []⟩).trace ++ [Event.delay 150] ++
        (lcd_write4bits 0x20 Transport.reliable ⟨w.regs, []⟩).trace ++ rest ∧
      gapsFrom 0 evs =
        [50000, 1000000, 0, 1, 4550, 0, 1, 4550, 0, 1, 200, 0, 1,
         50, 0, 1, 50, 0, 1,
         50, 0, 1, 50, 0, 1,
         50, 0, 1, 50, 0, 1,
         2050, 0, 1, 50, 0, 1,
         50, 0, 1, 50, 0, 1] ∧
      (∀ x, (gapsFrom 0 evs)[0]? = some x → 40000 ≤ x) ∧
      (∀ x, (gapsFrom 0 evs)[1]? = some x → 1000000 ≤ x) ∧
      (∀ x, (gapsFrom 0 evs)[4]? = some x → 4500 ≤ x) ∧
      (∀ x, (gapsFrom 0 evs)[7]? = some x → 4500 ≤ x) ∧
      (∀ x, (gapsFrom 0 evs)[10]? = some x → 150 ≤ x) := by
  refine ⟨beginEvents w.regs,
    sendEvents w.regs._addr w.regs._backlightval
      (u8 (LCD_FUNCTIONSET ||| displayFunctionFor w.regs._rows w.regs._charsize)) 0 ++
    (sendEvents w.regs._addr w.regs._backlightval
      (u8 (LCD_DISPLAYCONTROL |||
        u8 (u8 (LCD_DISPLAYON ||| LCD_CURSOROFF ||| LCD_BLINKOFF) ||| LCD_DISPLAYON))) 0 ++
    (sendEvents w.regs._addr w.regs._backlightval LCD_CLEARDISPLAY 0 ++ ([Event.delay 2000] ++
    (sendEvents w.regs._addr w.regs._backlightval
      (u8 (LCD_ENTRYMODESET ||| u8 (LCD_ENTRYLEFT ||| LCD_ENTRYSHIFTDECREMENT))) 0 ++
    (sendEvents w.regs._addr w.regs._backlightval LCD_RETURNHOME 0 ++ [Event.delay 2000]))))),
    ?_, ?_, gapsFrom_beginEvents w.regs, ?_, ?_, ?_, ?_, ?_⟩
  · rw [run_begin_reliable]
    rfl
  · simp only [run_write4bits_reliable, Outcome.trace, List.nil_append, beginEvents,
      List.append_assoc]
    rfl
  all_goals
    rw [gapsFrom_beginEvents]
    intro x hx
    simp at hx
    omega

/-! ## Command-only calls -/

section Commands
variable {b : Nat} {ev : Event → Prop}

theorem cmd_command (H : CommandEvents b ev) (v : Nat) :
    Inv (fun g => g._backlightval = b) ev (lcd_command v) :=
  inv_send v 0 fun g hg => by
    rw [hg]
    exact H.1 g._addr v

theorem cmd_setCursor (H : CommandEvents b ev) (col row : Nat) :
    Inv (fun g => g._backlightval = b) ev (lcd_setCursor col row) := by
  refine inv_getG_bind fun g _ => ?_
  show Inv _ _ (match row_offsets[if row > g._rows then u8i ((g._rows : Int) - 1) else row]? with
    | some off => lcd_command (u8 (LCD_SETDDRAMADDR ||| (col + off)))
    | none => raise Fault.outOfBounds)
  cases row_offsets[if row > g._rows then u8i ((g._rows : Int) - 1) else row]? with
  | none => exact inv_raise _
  | some off => exact cmd_command H _

theorem cmd_update (H : CommandEvents b ev) (f : Globals → Globals) (c : Globals → Nat)
    (hf : ∀ g, (f g)._backlightval = g._backlightval) :
    Inv (fun g => g._backlightval = b) ev
      (setG f >>= fun _ => getG >>= fun g => lcd_command (c g)) :=
  inv_bind (inv_setG _ fun g hg => (hf g).trans hg) fun _ =>
    inv_getG_bind fun _ _ => cmd_command H _

theorem cmd_clear (H : CommandEvents b ev) :
    Inv (fun g => g._backlightval = b) ev lcd_clear :=
  inv_bind (cmd_command H _) fun _ => inv_delay _ (H.2.2.2.2.1 _)

theorem cmd_home (H : CommandEvents b ev) :
    Inv (fun g => g._backlightval = b) ev lcd_home :=
  inv_bind (cmd_command H _) fun _ => inv_delay _ (H.2.2.2.2.1 _)

theorem cmd_display (H : CommandEvents b ev) :
    Inv (fun g => g._backlightval = b) ev lcd_display :=
  cmd_update H _ _ fun _ => rfl

theorem cmd_expanderWrite_flag (H : CommandEvents b ev) (a : Globals)
    (ha : a._backlightval = b) :
    Inv (fun g => g._backlightval = b) ev (lcd_expanderWrite a._backlightval) :=
  inv_expanderWrite _ fun g hg => by
    rw [hg, ha]
    exact H.2.2.2.1 _

theorem cmd_nibble3 (H : CommandEvents b ev) :
    Inv (fun g => g._backlightval = b) ev (lcd_write4bits (u8 (0x03 <<< 4))) :=
  inv_write4bits _ fun g hg => by
    rw [hg]
    exact H.2.1 _

theorem cmd_nibble2 (H : CommandEvents b ev) :
    Inv (fun g => g._backlightval = b) ev (lcd_write4bits (u8 (0x02 <<< 4))) :=
  inv_write4bits _ fun g hg => by
    rw [hg]
    exact H.2.2.1 _

theorem cmd_begin (H : CommandEvents b ev) :
    Inv (fun g => g._backlightval = b) ev lcd_begin := by
  unfold lcd_begin
  repeat' first
    | with_reducible apply inv_getG_bind
    | with_reducible apply inv_bind
    | with_reducible intro _
    | with_reducible exact inv_pure _
    | with_reducible exact cmd_command H _
    | with_reducible exact cmd_display H
    | with_reducible exact cmd_clear H
    | with_reducible exact cmd_home H
    | with_reducible exact cmd_expanderWrite_flag H _ (by assumption)
    | with_reducible exact cmd_nibble3 H
    | with_reducible exact cmd_nibble2 H
    | exact inv_driver_install fun _ _ => H.2.2.2.2.2 _ _
    | exact inv_delay _ (H.2.2.2.2.1 _)
    | exact inv_setG _ fun _ h => h
    | split

end Commands

/-! ## Data calls -/

section DataCalls
variable {b : Nat} {ev : Event → Prop}

theorem dat_write (H : ∀ a v, ∀ e ∈ sendEvents a b v Rs, ev e) (v : Nat) :
    Inv (fun g => g._backlightval = b) ev (lcd_write v) :=
  inv_send v Rs fun g hg => by
    rw [hg]
    exact H g._addr v

theorem dat_createChar_loop (H : ∀ a v, ∀ e ∈ sendEvents a b v Rs, ev e) (charmap : List Nat)
    (n i : Nat) : Inv (fun g => g._backlightval = b) ev (lcd_createChar.loop charmap n i) := by
  induction n generalizing i with
  | zero => exact inv_pure _
  | succ n ih =>
    unfold lcd_createChar.loop
    cases charmap[i]? with
    | none => exact inv_raise _
    | some c => exact inv_bind (dat_write H _) fun _ => ih _

theorem dat_print (H : ∀ a v, ∀ e ∈ sendEvents a b v Rs, ev e) (str : List Nat) :
    Inv (fun g => g._backlightval = b) ev (lcd_print str) := by
  induction str with
  | nil => exact inv_raise _
  | cons c str ih =>
    unfold lcd_print
    by_cases h : c = 0
    · rw [if_pos h]; exact inv_pure _
    · rw [if_neg h]; exact inv_bind (dat_write H _) fun _ => ih

end DataCalls

/-! ## Control bits on the wire -/

set_option maxRecDepth 100000 in
theorem wire_rw_bytes : ∀ n < 256, n &&& 0x0E = 0 → ∀ b1 < 2,
    u8 (n ||| 8 * b1) &&& Rw = 0 ∧
    u8 (u8 (n ||| En) ||| 8 * b1) &&& Rw = 0 ∧
    u8 (u8 (n &&& cnot En) ||| 8 * b1) &&& Rw = 0 := by
  decide

set_option maxRecDepth 100000 in
theorem wire_rs_bytes : ∀ n < 256, n &&& 0x0E = 0 → ∀ b1 < 2,
    u8 (n ||| 8 * b1) &&& Rs = n &&& 1 ∧
    u8 (u8 (n ||| En) ||| 8 * b1) &&& Rs = n &&& 1 ∧
    u8 (u8 (n &&& cnot En) ||| 8 * b1) &&& Rs = n &&& 1 := by
  decide

set_option maxRecDepth 100000 in
theorem data_nibble_bits : ∀ h < 256, h &&& 0xf0 = h → ∀ m < 2,
    u8 (u8 h ||| m) &&& 0x0E = 0 ∧ u8 (u8 h ||| m) &&& 1 = m := by
  decide

theorem wireOk_nibbleEvents (a b n r : Nat) (hn : n < 256) (hbits : n &&& 0x0E = 0)
    (hr : n &&& 1 = r) (hb : b = 0x00 ∨ b = 0x08) :
    ∀ e ∈ nibbleEvents a b n, wireOk r e := by
  obtain ⟨_, _, b1, hb1, _, rfl⟩ := flag_cases (Or.inl rfl : (0 : Nat) = 0 ∨ 0 = Rs) hb
  obtain ⟨h1, h2, h3⟩ := wire_rw_bytes n hn hbits b1 hb1
  obtain ⟨s1, s2, s3⟩ := wire_rs_bytes n hn hbits b1 hb1
  intro e he
  simp only [nibbleEvents, List.mem_cons, List.mem_singleton, List.not_mem_nil, or_false] at he
  rcases he with rfl | rfl | rfl | rfl | rfl <;>
    simp [wireOk, h1, h2, h3, s1, s2, s3, hr]

theorem wireOk_sendEvents (a b v m : Nat) (hm : m < 2) (hb : b = 0x00 ∨ b = 0x08) :
    ∀ e ∈ sendEvents a b v m, wireOk m e := by
  intro e he
  rcases List.mem_append.mp he with h | h
  · have hd := data_nibble_bits _ (masked_nibble v).1 (masked_nibble v).2 m hm
    exact wireOk_nibbleEvents a b _ m (u8_lt _) hd.1 hd.2 hb e h
  · have hd := data_nibble_bits _ (masked_nibble (v <<< 4)).1 (masked_nibble (v <<< 4)).2 m hm
    exact wireOk_nibbleEvents a b _ m (u8_lt _) hd.1 hd.2 hb e h

theorem commandEvents_wire (b : Nat) (hb : b = 0x00 ∨ b = 0x08) :
    CommandEvents b (wireOk 0) := by
  refine ⟨fun a v => wireOk_sendEvents a b v 0 (by decide) hb,
    fun a => wireOk_nibbleEvents a b _ 0 (by decide) (by decide) (by decide) hb,
    fun a => wireOk_nibbleEvents a b _ 0 (by decide) (by decide) (by decide) hb,
    ?_, fun _ => trivial, fun _ _ => trivial⟩
  intro a
  rcases hb with rfl | rfl <;> exact ⟨by decide, by decide⟩

theorem cmd_exec {b : Nat} {ev : Event → Prop} (H : CommandEvents b ev) (c : Call)
    (hk : c.wireKind = WireKind.commands) (hs : c.setsBacklight = false) :
    Inv (fun g => g._backlightval = b) ev c.exec := by
  cases c with
  | init sda scl addr cols rows charsize => exact absurd hs (by simp [Call.setsBacklight])
  | backlight => exact absurd hs (by decide)
  | noBacklight => exact absurd hs (by decide)
  | setBacklight v => exact absurd hs (by simp [Call.setsBacklight])
  | write v => exact absurd hk (by simp [Call.wireKind])
  | print s => exact absurd hk (by simp [Call.wireKind])
  | createChar l cm => exact absurd hk (by simp [Call.wireKind])
  | load_custom_character l cm => exact absurd hk (by simp [Call.wireKind])
  | begin => exact cmd_begin H
  | clear => exact cmd_clear H
  | home => exact cmd_home H
  | setCursor col row => exact cmd_setCursor H col row
  | command v => exact cmd_command H v
  | scrollDisplayLeft => exact cmd_command H _
  | scrollDisplayRight => exact cmd_command H _
  | _ => exact cmd_update H _ _ fun _ => rfl

theorem firstReject_initial (t : Transport) (xs p : List Event) (n : Nat)
    (h : firstReject t n xs = some p) : ∃ rest, p ++ rest = xs := by
  induction xs generalizing n p with
  | nil => simp [firstReject] at h
  | cons e es ih =>
    simp only [firstReject] at h
    by_cases ha : e.accepted t n
    · rw [if_pos ha] at h
      cases hr : firstReject t (n + countWrites [e]) es with
      | none => simp [hr] at h
      | some q =>
        rw [hr] at h
        simp only [Option.map_some', Option.some.injEq] at h
        subst h
        obtain ⟨rest, h1⟩ := ih q _ hr
        exact ⟨rest, by simp [h1]⟩
    · rw [if_neg ha] at h
      simp only [Option.some.injEq] at h
      subst h
      exact ⟨es, rfl⟩

/-- The trace of a run on any transport is an initial segment of the trace of
the run on an acknowledging transport. -/
theorem cut_trace_initial {α : Type} (t : Transport) (o : Outcome α) :
    ∃ rest, (o.cut t).trace ++ rest = o.trace := by
  cases hr : firstReject t 0 o.trace with
  | none => exact ⟨[], by simp [cut_of_none t o hr]⟩
  | some p =>
    obtain ⟨rest, h1⟩ := firstReject_initial t _ p 0 hr
    have hc : o.cut t = Outcome.fault Fault.espError p := by
      unfold Outcome.cut
      rw [hr]
    rw [hc]
    exact ⟨rest, h1⟩

theorem inv_writes_wire {α : Type} {b r : Nat} {m : LcdM α}
    (h : Inv (fun g => g._backlightval = b) (wireOk r) m) (t : Transport) (g : Globals)
    (hg : g._backlightval = b) :
    ∀ d ∈ writes (m t ⟨g, []⟩).trace, d &&& Rw = 0 ∧ d &&& Rs = r := by
  obtain ⟨evs, h1, h2, _⟩ := h t ⟨g, []⟩ hg
  intro d hd
  rw [h1] at hd
  obtain ⟨a, ha⟩ := mem_writes hd
  exact h2 _ (by simpa using ha)

theorem createChar_wire_reliable (location : Nat) (charmap : List Nat) (g : Globals)
    (hb : g._backlightval = 0x00 ∨ g._backlightval = 0x08) :
    ∃ six rest, writes (lcd_createChar location charmap Transport.reliable ⟨g, []⟩).trace =
        six ++ rest ∧ six.length = 6 ∧
      (∀ d ∈ six, d &&& Rw = 0 ∧ d &&& Rs = 0) ∧ (∀ d ∈ rest, d &&& Rw = 0 ∧ d &&& Rs = Rs) := by
  have hl : Inv (fun x => x._backlightval = g._backlightval) (wireOk Rs)
      (lcd_createChar.loop charmap 8 0) :=
    dat_createChar_loop (fun a v => wireOk_sendEvents a _ v Rs (by decide) hb) _ _ _
  obtain ⟨evs, h1, h2, _⟩ := hl Transport.reliable
    ⟨g, sendEvents g._addr g._backlightval
      (u8 (LCD_SETCGRAMADDR ||| (u8 (location &&& 0x7) <<< 3))) 0⟩ rfl
  refine ⟨writes (sendEvents g._addr g._backlightval
      (u8 (LCD_SETCGRAMADDR ||| (u8 (location &&& 0x7) <<< 3))) 0), writes evs, ?_,
    writes_sendEvents_length _ _ _ _, ?_, ?_⟩
  · simp only [lcd_createChar, run_bind, run_command_reliable, andThen_done, List.nil_append]
    rw [h1, writes_append]
  · intro d hd
    obtain ⟨a, ha⟩ := mem_writes hd
    exact wireOk_sendEvents _ _ _ 0 (by decide) hb _ ha
  · intro d hd
    obtain ⟨a, ha⟩ := mem_writes hd
    exact h2 _ ha

theorem writes_backlight (t : Transport) (g : Globals) :
    writes (lcd_backlight t ⟨g, []⟩).trace = [0x08] ∧
    writes (lcd_noBacklight t ⟨g, []⟩).trace = [0x00] := by
  rw [run_backlight, run_noBacklight]
  cases t.writeOk (countWrites ([] : List Event)) <;> exact ⟨rfl, rfl⟩

theorem createChar_wire (location : Nat) (charmap : List Nat) (t : Transport) (g : Globals)
    (hb : g._backlightval = 0x00 ∨ g._backlightval = 0x08) :
    (∀ d ∈ writes (lcd_createChar location charmap t ⟨g, []⟩).trace, d &&& Rw = 0) ∧
    rsOk WireKind.commandThenData (writes (lcd_createChar location charmap t ⟨g, []⟩).trace) := by
  have hc := exec_cut (Call.createChar location charmap) t g
  simp only [Call.exec] at hc
  obtain ⟨rest, hr⟩ := cut_trace_initial t
    (lcd_createChar location charmap Transport.reliable ⟨g, []⟩)
  rw [← hc] at hr
  obtain ⟨six, data, h1, h6, hs, hd⟩ := createChar_wire_reliable location charmap g hb
  rw [← hr, writes_append] at h1
  generalize writes (lcd_createChar location charmap t ⟨g, []⟩).trace = ds at h1 ⊢
  refine ⟨?_, ?_, ?_⟩
  · intro d hd1
    have hm : d ∈ ds ++ writes rest := List.mem_append.mpr (Or.inl hd1)
    rw [h1] at hm
    rcases List.mem_append.mp hm with h | h
    · exact (hs d h).1
    · exact (hd d h).1
  · intro d hd1
    have hm : d ∈ (ds ++ writes rest).take 6 := by
      rw [List.take_append_eq_append_take]
      exact List.mem_append.mpr (Or.inl hd1)
    rw [h1, List.take_left' h6] at hm
    exact (hs d hm).2
  · intro d hd1
    have hm : d ∈ (ds ++ writes rest).drop 6 := by
      rw [List.drop_append_eq_append_drop]
      exact List.mem_append.mpr (Or.inl hd1)
    rw [h1, List.drop_left' h6] at hm
    exact (hd d hm).2

/-- C19: the protocol is write-only on the wire. For every public operation
with any arguments, on every transport, from a state with `_backlightval` in
`{0x00, 0x08}`: no byte handed to the transport has the read/write bit
`Rw = 0x02` set, and the register-select bit `Rs = 0x01` is set on exactly the
bytes of data sends: on every byte written by `lcd_write` and `lcd_print`, on
every byte after the six bytes of the one command send of `lcd_createChar`
(and its alias), and on no byte of any other operation (command sends, the
bare nibbles of `lcd_begin`, the backlight writes); `lcd_init` writes nothing. -/
theorem wire_is_write_only (c : Call) (t : Transport) (g : Globals)
    (hb : g._backlightval = 0x00 ∨ g._backlightval = 0x08) :
    (∀ d ∈ writes (c.exec t ⟨g, []⟩).trace, d &&& Rw = 0) ∧
    rsOk c.wireKind (writes (c.exec t ⟨g, []⟩).trace) ∧ Rw = 0x02 ∧ Rs = 0x01 := by
  have hdata : ∀ a v, ∀ e ∈ sendEvents a g._backlightval v Rs, wireOk Rs e :=
    fun a v => wireOk_sendEvents a _ v Rs (by decide) hb
  have hcmd : ∀ x : Call, x.wireKind = WireKind.commands → x.setsBacklight = false →
      (∀ d ∈ writes (x.exec t ⟨g, []⟩).trace, d &&& Rw = 0) ∧
      rsOk WireKind.commands (writes (x.exec t ⟨g, []⟩).trace) := by
    intro x hk hs
    have h := inv_writes_wire (cmd_exec (commandEvents_wire _ hb) x hk hs) t g rfl
    exact ⟨fun d hd => (h d hd).1, fun d hd => (h d hd).2⟩
  have hon := (writes_backlight t g).1
  have hoff := (writes_backlight t g).2
  refine ⟨?_, ?_, rfl, rfl⟩
  · cases c with
    | init sda scl addr cols rows charsize =>
      intro d hd
      exact absurd hd (List.not_mem_nil d)
    | backlight =>
      show ∀ d ∈ writes (lcd_backlight t ⟨g, []⟩).trace, _
      rw [hon]; decide
    | noBacklight =>
      show ∀ d ∈ writes (lcd_noBacklight t ⟨g, []⟩).trace, _
      rw [hoff]; decide
    | setBacklight v =>
      show ∀ d ∈ writes (lcd_setBacklight v t ⟨g, []⟩).trace, _
      by_cases hv : v ≠ 0
      · rw [setBacklight_on v hv, hon]; decide
      · have hv0 : v = 0 := by omega
        rw [hv0, setBacklight_off, hoff]; decide
    | write v => exact fun d hd => (inv_writes_wire (dat_write hdata v) t g rfl d hd).1
    | print s => exact fun d hd => (inv_writes_wire (dat_print hdata s) t g rfl d hd).1
    | createChar l cm => exact (createChar_wire l cm t g hb).1
    | load_custom_character l cm => exact (createChar_wire l cm t g hb).1
    | _ => refine (hcmd _ ?_ ?_).1 <;> rfl
  · cases c with
    | init sda scl addr cols rows charsize => exact rfl
    | backlight =>
      show ∀ d ∈ writes (lcd_backlight t ⟨g, []⟩).trace, _
      rw [hon]; decide
    | noBacklight =>
      show ∀ d ∈ writes (lcd_noBacklight t ⟨g, []⟩).trace, _
      rw [hoff]; decide
    | setBacklight v =>
      show ∀ d ∈ writes (lcd_setBacklight v t ⟨g, []⟩).trace, _
      by_cases hv : v ≠ 0
      · rw [setBacklight_on v hv, hon]; decide
      · have hv0 : v = 0 := by omega
        rw [hv0, setBacklight_off, hoff]; decide
    | write v => exact fun d hd => (inv_writes_wire (dat_write hdata v) t g rfl d hd).2
    | print s => exact fun d hd => (inv_writes_wire (dat_print hdata s) t g rfl d hd).2
    | createChar l cm => exact (createChar_wire l cm t g hb).2
    | load_custom_character l cm => exact (createChar_wire l cm t g hb).2
    | _ => refine (hcmd _ ?_ ?_).2 <;> rfl

theorem wire_is_write_only_witness :
    (exampleGlobals._backlightval = 0x00 ∨ exampleGlobals._backlightval = 0x08) ∧
    (∀ d ∈ writes ((Call.createChar 0 [0x0, 0xa, 0x1f, 0x1f, 0xe, 0x4, 0x0, 0x0]).exec
        Transport.reliable ⟨exampleGlobals, []⟩).trace, d &&& Rw = 0) ∧
    rsOk WireKind.commandThenData
      (writes ((Call.createChar 0 [0x0, 0xa, 0x1f, 0x1f, 0xe, 0x4, 0x0, 0x0]).exec
        Transport.reliable ⟨exampleGlobals, []⟩).trace) :=
  ⟨Or.inr rfl,
   (wire_is_write_only (Call.createChar 0 [0x0, 0xa, 0x1f, 0x1f, 0xe, 0x4, 0x0, 0x0])
      Transport.reliable exampleGlobals (Or.inr rfl)).1,
   (wire_is_write_only (Call.createChar 0 [0x0, 0xa, 0x1f, 0x1f, 0xe, 0x4, 0x0, 0x0])
      Transport.reliable exampleGlobals (Or.inr rfl)).2.1⟩

/-! ## Bounds of the row-offset table -/

/-- C18 (the code departs from the claim): with 4 configured rows,
`lcd_setCursor(0, 4)` is not clamped, because the guard is `row > _rows`; the
index used into the 4-entry table `row_offsets` is 4, outside `0..3`, and the
call reads past the table. Rows 0 to 3 and every row above 4 stay in bounds. -/
theorem lcd_setCursor_row_four_of_four_out_of_bounds :
    lcd_setCursor 0 4 Transport.reliable ⟨{ exampleGlobals with _rows := 4 }, []⟩ =
      Outcome.fault Fault.outOfBounds [] ∧
    row_offsets.length = 4 ∧ row_offsets[4]? = none ∧
    writes (lcd_setCursor 0 3 Transport.reliable
      ⟨{ exampleGlobals with _rows := 4 }, []⟩).trace = sendBytes 0x08 (0x80 ||| 0x54) 0 ∧
    writes (lcd_setCursor 0 5 Transport.reliable
      ⟨{ exampleGlobals with _rows := 4 }, []⟩).trace = sendBytes 0x08 (0x80 ||| 0x54) 0 := by
  decide

/-! ## Independence of earlier flag values -/

theorem wireTrace_write_cons (a d : Nat) (es : List Event) :
    wireTrace (Event.write a d :: es) = Sum.inl d :: wireTrace es := rfl

theorem wireTrace_delay_cons (us : Nat) (es : List Event) :
    wireTrace (Event.delay us :: es) = Sum.inr us :: wireTrace es := rfl

theorem wireTrace_install_cons (sda scl : Nat) (es : List Event) :
    wireTrace (Event.install sda scl :: es) = wireTrace es := rfl

theorem wireTrace_append (xs ys : List Event) :
    wireTrace (xs ++ ys) = wireTrace xs ++ wireTrace ys := by
  induction xs with
  | nil => rfl
  | cons e es ih => cases e <;> simp [wireTrace, ih]

theorem wireTrace_nibbleEvents (a1 a2 b n : Nat) :
    wireTrace (nibbleEvents a1 b n) = wireTrace (nibbleEvents a2 b n) := rfl

theorem wireTrace_sendEvents (a1 a2 b v m : Nat) :
    wireTrace (sendEvents a1 b v m) = wireTrace (sendEvents a2 b v m) := by
  simp only [sendEvents, wireTrace_append, wireTrace_nibbleEvents a1 a2]

theorem wireTrace_beginEvents (g1 g2 : Globals) (hr : g1._rows = g2._rows)
    (hc : g1._charsize = g2._charsize) (hb : g1._backlightval = g2._backlightval) :
    wireTrace (beginEvents g1) = wireTrace (beginEvents g2) := by
  unfold beginEvents
  rw [hr, hc, hb]
  simp only [wireTrace_append, wireTrace_nibbleEvents g1._addr g2._addr,
    wireTrace_sendEvents g1._addr g2._addr, List.cons_append, List.nil_append,
    wireTrace_install_cons, wireTrace_delay_cons, wireTrace_write_cons]

theorem beginEvents_congr (g1 g2 : Globals) (hr : g1._rows = g2._rows)
    (hc : g1._charsize = g2._charsize) (hb : g1._backlightval = g2._backlightval)
    (ha : g1._addr = g2._addr) (hs : g1._gpio_sda = g2._gpio_sda)
    (hl : g1._gpio_scl = g2._gpio_scl) : beginEvents g1 = beginEvents g2 := by
  simp only [beginEvents, hr, hc, hb, ha, hs, hl]

/-- C20: `lcd_begin` never relies on earlier flag values. For any two states
that agree on the row count, the character size and the backlight flag, on an
acknowledging transport `lcd_begin` returns in both, appends the same sequence
of transport writes and delays, and ends with the same `_displayfunction`,
`_displaycontrol` and `_displaymode`, whatever those three groups held before;
if the two states also agree on the bus address and the pins, the appended
events are identical. -/
theorem lcd_begin_ignores_old_flags (w1 w2 : World) (hr : w1.regs._rows = w2.regs._rows)
    (hc : w1.regs._charsize = w2.regs._charsize)
    (hb : w1.regs._backlightval = w2.regs._backlightval) :
    ∃ v1 v2 e1 e2, lcd_begin Transport.reliable w1 = Outcome.done () v1 ∧
      lcd_begin Transport.reliable w2 = Outcome.done () v2 ∧
      v1.trace = w1.trace ++ e1 ∧ v2.trace = w2.trace ++ e2 ∧
      wireTrace e1 = wireTrace e2 ∧
      v1.regs._displayfunction = v2.regs._displayfunction ∧
      v1.regs._displaycontrol = v2.regs._displaycontrol ∧
      v1.regs._displaymode = v2.regs._displaymode ∧
      (w1.regs._addr = w2.regs._addr → w1.regs._gpio_sda = w2.regs._gpio_sda →
        w1.regs._gpio_scl = w2.regs._gpio_scl → e1 = e2) := by
  refine ⟨_, _, beginEvents w1.regs, beginEvents w2.regs, run_begin_reliable w1,
    run_begin_reliable w2, rfl, rfl, wireTrace_beginEvents _ _ hr hc hb, ?_, rfl, rfl,
    fun ha hs hl => beginEvents_congr _ _ hr hc hb ha hs hl⟩
  show displayFunctionFor _ _ = displayFunctionFor _ _
  rw [hr, hc]

theorem lcd_begin_ignores_old_flags_witness :
    ((⟨initGlobals, []⟩ : World).regs._rows = (⟨exampleGlobals, []⟩ : World).regs._rows ∧
      (⟨initGlobals, []⟩ : World).regs._charsize =
        (⟨exampleGlobals, []⟩ : World).regs._charsize ∧
      (⟨initGlobals, []⟩ : World).regs._backlightval =
        (⟨exampleGlobals, []⟩ : World).regs._backlightval) ∧
    initGlobals._displaycontrol ≠ exampleGlobals._displaycontrol ∧
    ∃ v1 v2 e1 e2, lcd_begin Transport.reliable ⟨initGlobals, []⟩ = Outcome.done () v1 ∧
      lcd_begin Transport.reliable ⟨exampleGlobals, []⟩ = Outcome.done () v2 ∧
      v1.trace = (⟨initGlobals, []⟩ : World).trace ++ e1 ∧
      v2.trace = (⟨exampleGlobals, []⟩ : World).trace ++ e2 ∧
      wireTrace e1 = wireTrace e2 ∧
      v1.regs._displayfunction = v2.regs._displayfunction ∧
      v1.regs._displaycontrol = v2.regs._displaycontrol ∧
      v1.regs._displaymode = v2.regs._displaymode ∧
      ((⟨initGlobals, []⟩ : World).regs._addr = (⟨exampleGlobals, []⟩ : World).regs._addr →
        (⟨initGlobals, []⟩ : World).regs._gpio_sda =
          (⟨exampleGlobals, []⟩ : World).regs._gpio_sda →
        (⟨initGlobals, []⟩ : World).regs._gpio_scl =
          (⟨exampleGlobals, []⟩ : World).regs._gpio_scl → e1 = e2) :=
  ⟨⟨rfl, rfl, rfl⟩, by decide,
   lcd_begin_ignores_old_flags ⟨initGlobals, []⟩ ⟨exampleGlobals, []⟩ rfl rfl rfl⟩

end DisplayI2C
